import Mathlib

/-!
Verification development for the liveu-bandwidth-analyzer repository.

The Python sources are shallowly embedded as executable Lean definitions:

* `src/backend/src/log_merger.py` — timestamp extraction, date-range
  parsing, range filtering and the chronological merge of log lines;
* `src/parser/src/worker.py` — the modem-statistics telemetry extractor
  (a single compound regular expression, modelled here by an explicit
  backtracking matcher with identical semantics), bandwidth unit
  conversion, and the worker's timestamp parser;
* `src/backend/src/session_analyzer.py` — per-session accumulation,
  timeline construction, finalization and the cross-session aggregates.

Strings are modelled as `List Char`; Python `datetime` values are modelled
by the `PyDateTime` structure below (a naive wall-clock stamp with an
optional UTC-offset, measured in minutes).  Python floats are modelled by
exact rationals.  File / network / database I/O is outside the embedding:
functions receive the decompressed text content their Python counterparts
would read.
-/

/-- Strings are modelled as lists of characters. -/
abbrev Str := List Char

/-- The single-quote character, used by several of the embedded regular
expression literals. -/
def sqCh : Char := Char.ofNat 39

/-- The newline character. -/
def nlChar : Char := Char.ofNat 10

/-- Python `str.isspace` characters relevant to `strip` (ASCII subset). -/
def isPyWs (c : Char) : Bool :=
  c = ' ' || c = Char.ofNat 9 || c = nlChar || c = Char.ofNat 13 ||
    c = Char.ofNat 11 || c = Char.ofNat 12

/-- Python `str.strip()`: drop leading and trailing whitespace. -/
def pyStrip (l : Str) : Str :=
  ((l.dropWhile isPyWs).reverse.dropWhile isPyWs).reverse

/-- Python `str.rstrip()`: drop trailing whitespace. -/
def pyRstrip (l : Str) : Str :=
  (l.reverse.dropWhile isPyWs).reverse

/-- Helper for `pySplitWs`: accumulate the current (reversed) word. -/
def pySplitWsGo (cur : Str) : Str → List Str
  | [] => if cur.isEmpty then [] else [cur.reverse]
  | c :: cs =>
    if isPyWs c then
      if cur.isEmpty then pySplitWsGo [] cs
      else cur.reverse :: pySplitWsGo [] cs
    else pySplitWsGo (c :: cur) cs

/-- Python `str.split()` with no argument: split on whitespace runs,
discarding empty fields. -/
def pySplitWs (l : Str) : List Str := pySplitWsGo [] l

/-- Python `content.split(sep)` for a single-character separator:
`''.split` yields `[[]]`, and every separator occurrence starts a new field. -/
def splitOnChar (sep : Char) : Str → List Str
  | [] => [[]]
  | c :: cs =>
    if c = sep then [] :: splitOnChar sep cs
    else
      (c :: (splitOnChar sep cs).headI) :: (splitOnChar sep cs).tail

/-- Python `str.lower()` (ASCII). -/
def pyLower (l : Str) : Str := l.map Char.toLower

/-- Decimal digit test, as in the regex class `\d` (ASCII). -/
def isDigitCh (c : Char) : Bool := c.isDigit

/-- Word-character test, as in the regex class `\w` (ASCII model). -/
def isWordCh (c : Char) : Bool := c.isAlphanum || c = '_'

/-- Numeric value of a digit string (most significant digit first). -/
def digitsToNat (l : Str) : Nat :=
  l.foldl (fun a c => a * 10 + (c.toNat - 48)) 0

/-- Greedy run of digits: `(run, rest)`. -/
def takeDigits (s : Str) : Str × Str :=
  (s.takeWhile isDigitCh, s.dropWhile isDigitCh)

/-- Match at least one digit greedily (`\d+`), returning the run and the
rest of the input. -/
def digits1 (s : Str) : Option (Str × Str) :=
  let p := takeDigits s
  if p.1.isEmpty then none else some p

/-- Match exactly `n` digits (`\d{n}`), returning their value and the rest. -/
def exactDigits : Nat → Str → Option (Nat × Str)
  | 0, s => some (0, s)
  | _ + 1, [] => none
  | n + 1, c :: cs =>
    if isDigitCh c then
      match exactDigits n cs with
      | some (v, r) => some ((c.toNat - 48) * 10 ^ n + v, r)
      | none => none
    else none

/-- Match a literal string, returning the rest of the input on success. -/
def stripLit : Str → Str → Option Str
  | [], s => some s
  | _ :: _, [] => none
  | p :: ps, c :: cs => if c = p then stripLit ps cs else none

/-- Expect a single given character. -/
def expectCh (c : Char) : Str → Option Str
  | [] => none
  | x :: xs => if x = c then some xs else none

/-- Skip zero or more whitespace characters (`\s*`). -/
def wsStar (s : Str) : Str := s.dropWhile isPyWs

/-- Require one or more whitespace characters (`\s+`). -/
def wsPlus (s : Str) : Option Str :=
  match s with
  | [] => none
  | c :: cs => if isPyWs c then some (cs.dropWhile isPyWs) else none

/-- Regex-style search: try the matcher at every suffix of the input,
leftmost position first — the semantics of `re.search` for our patterns,
including position-level backtracking. -/
def searchSfx (f : Str → Option α) : Str → Option α
  | [] => f []
  | c :: cs =>
    match f (c :: cs) with
    | some a => some a
    | none => searchSfx f cs

/-- Whether the literal `pat` occurs anywhere in `hay`. -/
def containsLit (hay pat : Str) : Bool :=
  (searchSfx (stripLit pat) hay).isSome

/-!  ## Python `datetime` model -/

/-- A Python `datetime` value: a wall-clock stamp plus an optional UTC
offset in minutes (`none` = naive).  All values built by the embedded
parsers satisfy the `datetime` class invariants (month 1–12, calendar-valid
day, hour ≤ 23, minute, second ≤ 59, microsecond < 10⁶). -/
structure PyDateTime where
  year : Nat
  month : Nat
  day : Nat
  hour : Nat
  minute : Nat
  second : Nat
  micro : Nat
  tzMin : Option Int
deriving Repr, DecidableEq

/-- Leap-year test (proleptic Gregorian, as in Python `datetime`). -/
def isLeap (y : Nat) : Bool := (y % 4 = 0 && y % 100 ≠ 0) || y % 400 = 0

/-- Number of days in a month. -/
def daysInMonth (y m : Nat) : Nat :=
  if m = 2 then (if isLeap y then 29 else 28)
  else if m = 4 || m = 6 || m = 9 || m = 11 then 30
  else 31

/-- Calendar-validity of a parsed date (`datetime` constructor checks). -/
def validDate (y mo d : Nat) : Bool :=
  1 ≤ y && 1 ≤ mo && mo ≤ 12 && 1 ≤ d && d ≤ daysInMonth y mo

/-- Validity of a parsed time of day. -/
def validTime (h mi s : Nat) : Bool := h ≤ 23 && mi ≤ 59 && s ≤ 59

/-- Days since 1970-01-01 of a proleptic-Gregorian civil date (the standard
days-from-civil algorithm; all intermediate quantities are nonnegative for
years ≥ 0). -/
def daysFromCivil (y m d : Nat) : Int :=
  let y2 := if m ≤ 2 then y - 1 else y
  let era := y2 / 400
  let yoe := y2 - era * 400
  let mp := if m > 2 then m - 3 else m + 9
  let doy := (153 * mp + 2) / 5 + d - 1
  let doe := yoe * 365 + yoe / 4 - yoe / 100 + doy
  (era * 146097 + doe : Nat) - (719468 : Int)

/-- Microseconds since the epoch of the wall-clock (offset-ignored) part of
a stamp.  On calendar-valid values this key is strictly monotone in the
field-lexicographic order, which is how Python compares naive `datetime`
values; it also measures real elapsed time, matching `timedelta`. -/
def PyDateTime.naiveMicros (t : PyDateTime) : Int :=
  daysFromCivil t.year t.month t.day * 86400000000 +
    (((t.hour * 3600 + t.minute * 60 + t.second) * 1000000 + t.micro : Nat) : Int)

/-- Comparison of two naive `datetime` values (Python `<`). -/
def dtLt (a b : PyDateTime) : Bool := a.naiveMicros < b.naiveMicros

/-- Microseconds since epoch adjusted to UTC, for aware values. -/
def PyDateTime.utcMicros (t : PyDateTime) : Int :=
  t.naiveMicros - (t.tzMin.getD 0) * 60000000

/-- Python `<` on two `datetime` values that may carry offsets: comparing an
aware and a naive value raises `TypeError`, modelled as `none`. -/
def dtLtOpt (a b : PyDateTime) : Option Bool :=
  if a.tzMin.isSome = b.tzMin.isSome then some (a.utcMicros < b.utcMicros)
  else none

/-- Difference `b - a` in seconds, as `timedelta.total_seconds()`. -/
def secDiff (a b : PyDateTime) : ℚ :=
  ((b.naiveMicros - a.naiveMicros : Int) : ℚ) / 1000000

/-- The sentinel "invalid timestamp" value `datetime.fromtimestamp(0)`. -/
def epochDT : PyDateTime := ⟨1970, 1, 1, 0, 0, 0, 0, none⟩

/-!  ## Stable sort (Python `list.sort` / `sorted` are stable) -/

/-- Insert an element after every already-placed element that is not
strictly greater — the stable insertion step. -/
def insertStable (lt : α → α → Bool) (e : α) : List α → List α
  | [] => [e]
  | x :: xs => if lt e x then e :: x :: xs else x :: insertStable lt e xs

/-- Stable sort by a strict comparison, inserting elements in their
original order; extensionally equal to Python's stable `sort`. -/
def stableSort (lt : α → α → Bool) (l : List α) : List α :=
  l.foldl (fun acc e => insertStable lt e acc) []

/-!  ## log_merger.py — timestamp extraction (`extract_timestamp`)

The six anchored regex patterns and the six `strptime` formats of
`extract_timestamp` are embedded one-to-one.  A pattern matcher consumes an
anchored prefix of the (stripped) line; its capture is re-parsed by the
format parsers, mirroring the two nested loops of the Python code.  -/

/-- Anchored match of `\d{4}-\d{2}-\d{2}`. -/
def patDate (s : Str) : Option Str := do
  let (_, r1) ← exactDigits 4 s
  let r2 ← expectCh '-' r1
  let (_, r3) ← exactDigits 2 r2
  let r4 ← expectCh '-' r3
  let (_, r5) ← exactDigits 2 r4
  pure r5

/-- Anchored match of `\d{2}:\d{2}:\d{2}`. -/
def patClock (s : Str) : Option Str := do
  let (_, r1) ← exactDigits 2 s
  let r2 ← expectCh ':' r1
  let (_, r3) ← exactDigits 2 r2
  let r4 ← expectCh ':' r3
  let (_, r5) ← exactDigits 2 r4
  pure r5

/-- Anchored match of `\.\d+`. -/
def patFrac (s : Str) : Option Str := do
  let r1 ← expectCh '.' s
  let (_, r2) ← digits1 r1
  pure r2

/-- Anchored match of `[+-]\d{2}:\d{2}`. -/
def patTzOff (s : Str) : Option Str :=
  match s with
  | [] => none
  | c :: cs =>
    if c = '+' || c = '-' then do
      let (_, r1) ← exactDigits 2 cs
      let r2 ← expectCh ':' r1
      let (_, r3) ← exactDigits 2 r2
      pure r3
    else none

/-- Anchored match of three word characters (`\w{3}`). -/
def patWord3 : Str → Option Str
  | a :: b :: c :: r =>
    if isWordCh a && isWordCh b && isWordCh c then some r else none
  | _ => none

/-- Pattern 1: ISO 8601 with fractional seconds and offset. -/
def patIsoFracTz (s : Str) : Option Str := do
  let r1 ← patDate s
  let r2 ← expectCh 'T' r1
  let r3 ← patClock r2
  let r4 ← patFrac r3
  patTzOff r4

/-- Pattern 2: ISO 8601 with offset. -/
def patIsoTz (s : Str) : Option Str := do
  let r1 ← patDate s
  let r2 ← expectCh 'T' r1
  let r3 ← patClock r2
  patTzOff r3

/-- Pattern 3: ISO 8601 with fractional seconds. -/
def patIsoFrac (s : Str) : Option Str := do
  let r1 ← patDate s
  let r2 ← expectCh 'T' r1
  let r3 ← patClock r2
  patFrac r3

/-- Pattern 4: basic ISO 8601. -/
def patIsoBasic (s : Str) : Option Str := do
  let r1 ← patDate s
  let r2 ← expectCh 'T' r1
  patClock r2

/-- Pattern 5: `YYYY-MM-DD HH:MM:SS` with `\s+` between date and time. -/
def patStandard (s : Str) : Option Str := do
  let r1 ← patDate s
  let r2 ← wsPlus r1
  patClock r2

/-- Match one or two digits greedily (`\d{1,2}` and `strptime`'s
one-or-two-digit field patterns): every use is followed by a non-digit
(a separator, `\s+`, or end of input), so when two digits are available the
one-digit alternative can never let the continuation succeed, and trying
two digits first is equivalent to the regex engine's backtracking. -/
def digits1Or2 (s : Str) : Option (Nat × Str) :=
  exactDigits 2 s <|> exactDigits 1 s

/-- Pattern 6: syslog-style `Mon DD HH:MM:SS` (`\w{3}\s+\d{1,2}\s+…`). -/
def patSyslog (s : Str) : Option Str := do
  let r1 ← patWord3 s
  let r2 ← wsPlus r1
  let (_, r3) ← digits1Or2 r2
  let r4 ← wsPlus r3
  patClock r4

/-- The capture of an anchored pattern: the consumed prefix of the input. -/
def matchCapture (m : Str → Option Str) (s : Str) : Option Str :=
  (m s).map (fun r => s.take (s.length - r.length))

/-- Parse `%Y-%m-%d` with the `datetime` constructor's validity checks,
returning the date fields and the rest of the input. -/
def fmtDate (s : Str) : Option ((Nat × Nat × Nat) × Str) := do
  let (y, r1) ← exactDigits 4 s
  let r2 ← expectCh '-' r1
  let (mo, r3) ← exactDigits 2 r2
  let r4 ← expectCh '-' r3
  let (d, r5) ← exactDigits 2 r4
  if validDate y mo d then pure ((y, mo, d), r5) else none

/-- Parse `%H:%M:%S` with validity checks. -/
def fmtClock (s : Str) : Option ((Nat × Nat × Nat) × Str) := do
  let (h, r1) ← exactDigits 2 s
  let r2 ← expectCh ':' r1
  let (mi, r3) ← exactDigits 2 r2
  let r4 ← expectCh ':' r3
  let (sec, r5) ← exactDigits 2 r4
  if validTime h mi sec then pure ((h, mi, sec), r5) else none

/-- Parse `.%f`: a dot and one to six fraction digits, scaled to
microseconds (`strptime` rejects longer fractions). -/
def fmtFrac (s : Str) : Option (Nat × Str) := do
  let r1 ← expectCh '.' s
  let p := takeDigits r1
  if p.1.length = 0 || p.1.length > 6 then none
  else pure (digitsToNat p.1 * 10 ^ (6 - p.1.length), p.2)

/-- Parse `%z` in the `[+-]HH:MM` form the captures can take; the parsed
offset is discarded afterwards (`replace(tzinfo=None)` in the source), so
only acceptance matters. -/
def fmtTzOff (s : Str) : Option Str := patTzOff s

/-- Format 1: `%Y-%m-%dT%H:%M:%S.%f%z`; the offset is dropped, giving a
naive stamp. -/
def fmtIsoFracTz (s : Str) : Option PyDateTime := do
  let ((y, mo, d), r1) ← fmtDate s
  let r2 ← expectCh 'T' r1
  let ((h, mi, sec), r3) ← fmtClock r2
  let (us, r4) ← fmtFrac r3
  let r5 ← fmtTzOff r4
  if r5.isEmpty then pure ⟨y, mo, d, h, mi, sec, us, none⟩ else none

/-- Format 2: `%Y-%m-%dT%H:%M:%S%z`; the offset is dropped. -/
def fmtIsoTz (s : Str) : Option PyDateTime := do
  let ((y, mo, d), r1) ← fmtDate s
  let r2 ← expectCh 'T' r1
  let ((h, mi, sec), r3) ← fmtClock r2
  let r4 ← fmtTzOff r3
  if r4.isEmpty then pure ⟨y, mo, d, h, mi, sec, 0, none⟩ else none

/-- Format 3: `%Y-%m-%dT%H:%M:%S.%f`. -/
def fmtIsoFrac (s : Str) : Option PyDateTime := do
  let ((y, mo, d), r1) ← fmtDate s
  let r2 ← expectCh 'T' r1
  let ((h, mi, sec), r3) ← fmtClock r2
  let (us, r4) ← fmtFrac r3
  if r4.isEmpty then pure ⟨y, mo, d, h, mi, sec, us, none⟩ else none

/-- Format 4: `%Y-%m-%dT%H:%M:%S`. -/
def fmtIsoBasic (s : Str) : Option PyDateTime := do
  let ((y, mo, d), r1) ← fmtDate s
  let r2 ← expectCh 'T' r1
  let ((h, mi, sec), r3) ← fmtClock r2
  if r3.isEmpty then pure ⟨y, mo, d, h, mi, sec, 0, none⟩ else none

/-- Format 5: `%Y-%m-%d %H:%M:%S` (a space in a `strptime` format matches a
whitespace run). -/
def fmtStandard (s : Str) : Option PyDateTime := do
  let ((y, mo, d), r1) ← fmtDate s
  let r2 ← wsPlus r1
  let ((h, mi, sec), r3) ← fmtClock r2
  if r3.isEmpty then pure ⟨y, mo, d, h, mi, sec, 0, none⟩ else none

/-- Abbreviated month name (`%b`), matched case-insensitively. -/
def monthAbbrev : Str → Option (Nat × Str)
  | a :: b :: c :: r =>
    let w := pyLower [a, b, c]
    if w = "jan".data then some (1, r) else if w = "feb".data then some (2, r)
    else if w = "mar".data then some (3, r) else if w = "apr".data then some (4, r)
    else if w = "may".data then some (5, r) else if w = "jun".data then some (6, r)
    else if w = "jul".data then some (7, r) else if w = "aug".data then some (8, r)
    else if w = "sep".data then some (9, r) else if w = "oct".data then some (10, r)
    else if w = "nov".data then some (11, r) else if w = "dec".data then some (12, r)
    else none
  | _ => none

/-- Format 6: `%b %d %H:%M:%S`; `strptime` defaults the year to 1900 (so a
Feb 29 never parses) and the caller substitutes `current_year`. -/
def fmtSyslog (cy : Nat) (s : Str) : Option PyDateTime := do
  let (mo, r1) ← monthAbbrev s
  let r2 ← wsPlus r1
  let (d, r3) ← digits1Or2 r2
  if 1 ≤ d && d ≤ daysInMonth 1900 mo then do
    let r4 ← wsPlus r3
    let ((h, mi, sec), r5) ← fmtClock r4
    if r5.isEmpty then pure ⟨cy, mo, d, h, mi, sec, 0, none⟩ else none
  else none

/-- The inner `strptime`-format loop of `extract_timestamp`: the six
formats are tried in order on a pattern's capture. -/
def tryFormats (cy : Nat) (cap : Str) : Option PyDateTime :=
  fmtIsoFracTz cap <|> fmtIsoTz cap <|> fmtIsoFrac cap <|> fmtIsoBasic cap <|>
    fmtStandard cap <|> fmtSyslog cy cap

/-- Embedding of `extract_timestamp` (log_merger.py): try the six anchored
patterns in order on the stripped line; re-parse the first capture whose
format loop succeeds; otherwise return the sentinel
`datetime.fromtimestamp(0)`. -/
def extract_timestamp (cy : Nat) (line : Str) : PyDateTime :=
  let t := pyStrip line
  match (matchCapture patIsoFracTz t >>= tryFormats cy) <|>
      (matchCapture patIsoTz t >>= tryFormats cy) <|>
      (matchCapture patIsoFrac t >>= tryFormats cy) <|>
      (matchCapture patIsoBasic t >>= tryFormats cy) <|>
      (matchCapture patStandard t >>= tryFormats cy) <|>
      (matchCapture patSyslog t >>= tryFormats cy) with
  | some dt => dt
  | none => epochDT

/-!  ## log_merger.py — date-range parsing and filtering -/

/-- Parse `%Y-%m-%d` as `strptime` does: `%Y` is exactly four digits, while
`%m` and `%d` accept one or two digits (CPython's field patterns
`1[0-2]|0[1-9]|[1-9]` and `3[01]|[12]\d|0[1-9]|[1-9]`).  Each field is
followed by a non-digit, so greedy two-digits-first matches the regex
engine's backtracking, and the out-of-range two-digit values those patterns
exclude are rejected here by the `datetime` constructor checks
(`validDate`), which reject exactly the same strings. -/
def stpDate (s : Str) : Option ((Nat × Nat × Nat) × Str) := do
  let (y, r1) ← exactDigits 4 s
  let r2 ← expectCh '-' r1
  let (mo, r3) ← digits1Or2 r2
  let r4 ← expectCh '-' r3
  let (d, r5) ← digits1Or2 r4
  if validDate y mo d then pure ((y, mo, d), r5) else none

/-- Parse `%H:%M:%S` as `strptime` does: each field accepts one or two
digits; value bounds are the `datetime` constructor's (a leap second
accepted by `%S`'s pattern is rejected by the constructor, so rejecting it
here is faithful). -/
def stpClock (s : Str) : Option ((Nat × Nat × Nat) × Str) := do
  let (h, r1) ← digits1Or2 s
  let r2 ← expectCh ':' r1
  let (mi, r3) ← digits1Or2 r2
  let r4 ← expectCh ':' r3
  let (sec, r5) ← digits1Or2 r4
  if validTime h mi sec then pure ((h, mi, sec), r5) else none

/-- Parse `%Y-%m-%d` against the whole bound string. -/
def strptimeDateOnly (s : Str) : Option PyDateTime := do
  let ((y, mo, d), r) ← stpDate s
  if r.isEmpty then pure ⟨y, mo, d, 0, 0, 0, 0, none⟩ else none

/-- Parse `%Y-%m-%d %H:%M` against the whole bound string. -/
def strptimeDateHM (s : Str) : Option PyDateTime := do
  let ((y, mo, d), r1) ← stpDate s
  let r2 ← wsPlus r1
  let (h, r3) ← digits1Or2 r2
  let r4 ← expectCh ':' r3
  let (mi, r5) ← digits1Or2 r4
  if h ≤ 23 && mi ≤ 59 && r5.isEmpty then pure ⟨y, mo, d, h, mi, 0, 0, none⟩
  else none

/-- Parse `%Y-%m-%d %H:%M:%S` against the whole bound string. -/
def strptimeDateHMS (s : Str) : Option PyDateTime := do
  let ((y, mo, d), r1) ← stpDate s
  let r2 ← wsPlus r1
  let ((h, mi, sec), r3) ← stpClock r2
  if r3.isEmpty then pure ⟨y, mo, d, h, mi, sec, 0, none⟩ else none

/-- Replace the time of day by 23:59:59 ("set to end of day"). -/
def endOfDay (d : PyDateTime) : PyDateTime :=
  { d with hour := 23, minute := 59, second := 59 }

/-- Embedding of the start-bound branch of `parse_date_range`: choose the
`strptime` format by the number of whitespace-separated parts; a parse
failure yields `None` (the bound is simply not applied). -/
def parseStartBound : Option Str → Option PyDateTime
  | none => none
  | some s =>
    if s.isEmpty then none
    else
      match (pySplitWs s).length with
      | 1 => strptimeDateOnly s
      | 2 => strptimeDateHM s
      | _ => strptimeDateHMS s

/-- Embedding of the end-bound branch of `parse_date_range`: as for the
start bound, but a date-only bound is moved to the end of its day. -/
def parseEndBound : Option Str → Option PyDateTime
  | none => none
  | some s =>
    if s.isEmpty then none
    else
      match (pySplitWs s).length with
      | 1 => (strptimeDateOnly s).map endOfDay
      | 2 => strptimeDateHM s
      | _ => strptimeDateHMS s

/-- Embedding of `parse_date_range`. -/
def parse_date_range (startStr endStr : Option Str) :
    Option PyDateTime × Option PyDateTime :=
  (parseStartBound startStr, parseEndBound endStr)

/-- Embedding of `is_timestamp_in_range`: sentinel timestamps (year ≤ 1970)
are excluded outright, then each present bound is checked. -/
def is_timestamp_in_range (ts : PyDateTime)
    (startDt endDt : Option PyDateTime) : Bool :=
  if ts.year ≤ 1970 then false
  else if (match startDt with | some sd => dtLt ts sd | none => false) then false
  else if (match endDt with | some ed => dtLt ed ts | none => false) then false
  else true

/-!  ## log_merger.py — chronological merge

File discovery, decompression and reading are I/O and sit outside the
embedding: a `LogSrc` carries the path, rotation number and the list of
lines its Python counterpart would read.  `merge_messages_logs` is embedded
from the "Process all log files" loop onward (log_merger.py lines 254-298):
collect the retained lines across the given sources in order, then sort by
timestamp with Python's stable sort. -/

structure LogSrc where
  path : Str
  rotation : Nat
  lines : List Str

/-- One retained line of the merge: the tuple
`(timestamp, line.rstrip(), file_path, rotation_num)` appended to
`all_lines`. -/
structure MergeEntry where
  ts : PyDateTime
  text : Str
  path : Str
  rotation : Nat
deriving Repr, DecidableEq

/-- Per-line decision of the merge loop: blank lines are skipped; with a
date filter active, only valid (post-1970) in-range timestamps are kept;
without a filter, every non-blank line is kept. -/
def keepLine (cy : Nat) (startDt endDt : Option PyDateTime) (src : LogSrc)
    (line : Str) : Option MergeEntry :=
  if (pyStrip line).isEmpty then none
  else
    let ts := extract_timestamp cy line
    if startDt.isSome || endDt.isSome then
      if ts.year > 1970 && is_timestamp_in_range ts startDt endDt then
        some ⟨ts, pyRstrip line, src.path, src.rotation⟩
      else none
    else some ⟨ts, pyRstrip line, src.path, src.rotation⟩

/-- The accumulation loop of `merge_messages_logs`: append each retained
line, walking sources then lines in order. -/
def merge_collect (cy : Nat) (startDt endDt : Option PyDateTime)
    (sources : List LogSrc) : List MergeEntry :=
  sources.foldl
    (fun acc src =>
      src.lines.foldl
        (fun acc2 line => acc2 ++ (keepLine cy startDt endDt src line).toList)
        acc)
    []

/-- Sort comparison used by the merge: `all_lines.sort(key=lambda x: x[0])`
compares parsed timestamps. -/
def entryLt (a b : MergeEntry) : Bool := dtLt a.ts b.ts

/-- Embedding of `merge_messages_logs` (modulo I/O): parse the optional
bounds, collect the retained lines, and stable-sort by timestamp.  The
result is the ordered list of merged entries. -/
def merge_messages_logs (cy : Nat) (startStr endStr : Option Str)
    (sources : List LogSrc) : List MergeEntry :=
  let b := parse_date_range startStr endStr
  stableSort entryLt (merge_collect cy b.1 b.2 sources)

/-- Reference merge, following the spec's words: collect every retained
line from all sources, stable-sort the collection by parsed instant
ascending, and re-emit. -/
def reference_merge (cy : Nat) (startStr endStr : Option Str)
    (sources : List LogSrc) : List MergeEntry :=
  let b := parse_date_range startStr endStr
  stableSort entryLt
    (sources.flatMap (fun src => src.lines.filterMap (keepLine cy b.1 b.2 src)))

/-!  ## worker.py — `datetime.fromisoformat` and `parse_timestamp`

`fromisoformat` is modelled in its extended form
`YYYY-MM-DD[<sep>HH[:MM[:SS[.ffff…]]]][offset]`, with fraction digits
truncated to microseconds and an optional `±HH[:MM]` or `Z` offset, the
behavior of Python ≥ 3.11 on the strings this repository produces. -/

/-- Microseconds from a fraction-digit run, truncating beyond six digits. -/
def fracMicros (ds : Str) : Nat :=
  if ds.length ≥ 6 then digitsToNat (ds.take 6)
  else digitsToNat ds * 10 ^ (6 - ds.length)

/-- Parse the optional offset suffix of an ISO string: empty (naive), `Z`,
or `±HH[:MM]`, validated; the result is the offset in minutes. -/
def isoOffset (s : Str) : Option (Option Int) :=
  match s with
  | [] => some none
  | 'Z' :: r => if r.isEmpty then some (some 0) else none
  | c :: cs =>
    if c = '+' || c = '-' then do
      let (h, r1) ← exactDigits 2 cs
      let (m, r2) ←
        match r1 with
        | ':' :: r => exactDigits 2 r
        | r => some (0, r)
      if h ≤ 23 && m ≤ 59 && r2.isEmpty then
        let v : Int := h * 60 + m
        some (some (if c = '-' then -v else v))
      else none
    else none

/-- Parse the time-of-day part `HH[:MM[:SS[.frac]]]` plus offset. -/
def isoTimePart (s : Str) : Option (Nat × Nat × Nat × Nat × Option Int) := do
  let (h, r1) ← exactDigits 2 s
  match r1 with
  | ':' :: r2 => do
    let (mi, r3) ← exactDigits 2 r2
    match r3 with
    | ':' :: r4 => do
      let (sec, r5) ← exactDigits 2 r4
      match r5 with
      | '.' :: r6 => do
        let (ds, r7) ← digits1 r6
        let tz ← isoOffset r7
        if validTime h mi sec then pure (h, mi, sec, fracMicros ds, tz) else none
      | r6 => do
        let tz ← isoOffset r6
        if validTime h mi sec then pure (h, mi, sec, 0, tz) else none
    | r4 => do
      let tz ← isoOffset r4
      if validTime h mi 0 then pure (h, mi, 0, 0, tz) else none
  | r2 => do
    let tz ← isoOffset r2
    if h ≤ 23 then pure (h, 0, 0, 0, tz) else none

/-- Model of `datetime.fromisoformat`. -/
def fromisoformat (s : Str) : Option PyDateTime := do
  let ((y, mo, d), r1) ← fmtDate s
  match r1 with
  | [] => pure ⟨y, mo, d, 0, 0, 0, 0, none⟩
  | _ :: r2 => do
    let (h, mi, sec, us, tz) ← isoTimePart r2
    pure ⟨y, mo, d, h, mi, sec, us, tz⟩

/-- Embedding of `BandwidthParser.parse_timestamp`: cut at the first `+`,
else drop a trailing `Z`, then `fromisoformat`; a negative `-HH:MM` offset
is not stripped, so such inputs parse to an offset-aware value. -/
def parse_timestamp (s : Str) : Option PyDateTime :=
  let s2 :=
    if s.contains '+' then s.takeWhile (fun c => c ≠ '+')
    else if s.getLast? = some 'Z' then s.dropLast
    else s
  fromisoformat s2

/-!  ## worker.py — the `modem_stats` pattern

The compound regular expression is embedded as a chain of leftmost
searches.  Each `.*?tok…` step finds the earliest occurrence of its token
in the remaining suffix; quantifier backtracking inside the numeric and
unit groups is implemented exactly (longest first, fraction before no
fraction), so the group values coincide with `re.search`'s. -/

/-- The timestamp group: anchored `\d{4}-…[+-]\d{2}:\d{2}`, returning the
captured text and the rest. -/
def matchTsTok (s : Str) : Option (Str × Str) :=
  (patIsoFracTz s).map (fun r => (s.take (s.length - r.length), r))

/-- Anchored `Modem Statistics for modem (\d+):`. -/
def modemTokAt (s : Str) : Option (Nat × Str) := do
  let r1 ← stripLit "Modem Statistics for modem ".data s
  let (ds, r2) ← digits1 r1
  let r3 ← expectCh ':' r2
  pure (digitsToNat ds, r3)

/-- Leftmost search for the modem-number token. -/
def findModemTok (s : Str) : Option (Nat × Str) := searchSfx modemTokAt s

/-- Backtracking over the fraction digits of `(?:\.\d+)?`, longest first:
`fs`/`r2` split the post-dot input, `ip` is the integer part. -/
def fracTry (k : Str → Option α) (ip : Nat) (fs r2 : Str) : Nat → Option (ℚ × α)
  | 0 => none
  | fl + 1 =>
    match k (fs.drop (fl + 1) ++ r2) with
    | some a =>
      some ((ip : ℚ) + (digitsToNat (fs.take (fl + 1)) : ℚ) / ((10 : ℚ) ^ (fl + 1)), a)
    | none => fracTry k ip fs r2 fl

/-- Backtracking over the integer digits of `(\d+)`, longest first; for each
length the greedy fraction alternative is tried before the empty one. -/
def numTryAt (k : Str → Option α) (ds r0 : Str) : Nat → Option (ℚ × α)
  | 0 => none
  | dl + 1 =>
    let ip := digitsToNat (ds.take (dl + 1))
    let restd := ds.drop (dl + 1) ++ r0
    let withFrac :=
      match restd with
      | '.' :: r1 =>
        let p := takeDigits r1
        fracTry k ip p.1 p.2 p.1.length
      | _ => none
    match withFrac with
    | some a => some a
    | none =>
      match k restd with
      | some a => some ((ip : ℚ), a)
      | none => numTryAt k ds r0 dl

/-- The group `(\d+(?:\.\d+)?)` followed by continuation `k`, with the
regex engine's backtracking order; yields the numeric value `float` gives. -/
def numBktk (k : Str → Option α) (s : Str) : Option (ℚ × α) :=
  let p := takeDigits s
  numTryAt k p.1 p.2 p.1.length

/-- Backtracking for `(\w+bps)` after the number: `\w+` greedy, then the
literal `bps`; returns the captured unit and the rest. -/
def unitTryAt (ws r0 : Str) : Nat → Option (Str × Str)
  | 0 => none
  | wl + 1 =>
    match stripLit "bps".data (ws.drop (wl + 1) ++ r0) with
    | some r => some (ws.take (wl + 1) ++ "bps".data, r)
    | none => unitTryAt ws r0 wl

/-- The unit group `(\w+bps)`. -/
def unitBktk (s : Str) : Option (Str × Str) :=
  let ws := s.takeWhile isWordCh
  unitTryAt ws (s.dropWhile isWordCh) ws.length

/-- Anchored `potentialBW (\d+(?:\.\d+)?)(\w+bps)`. -/
def bwTokAt (s : Str) : Option ((ℚ × (Str × Str))) := do
  let r1 ← stripLit "potentialBW ".data s
  numBktk unitBktk r1

/-- Leftmost search for the bandwidth token. -/
def findBwTok (s : Str) : Option (ℚ × (Str × Str)) := searchSfx bwTokAt s

/-- Anchored `loss \((\d+(?:\.\d+)?)%\)`. -/
def lossTokAt (s : Str) : Option (ℚ × Str) := do
  let r1 ← stripLit "loss (".data s
  numBktk (stripLit "%)".data) r1

/-- Leftmost search for the packet-loss token. -/
def findLossTok (s : Str) : Option (ℚ × Str) := searchSfx lossTokAt s

/-- Anchored `<lit>(\d+)ms\)` for the four delay/RTT fields, where `lit`
ends with the opening parenthesis. -/
def delayTokAt (lit : Str) (s : Str) : Option (Nat × Str) := do
  let r1 ← stripLit lit s
  let (ds, r2) ← digits1 r1
  let r3 ← stripLit "ms)".data r2
  pure (digitsToNat ds, r3)

/-- Leftmost search for a delay/RTT token. -/
def findDelayTok (lit : Str) (s : Str) : Option (Nat × Str) :=
  searchSfx (delayTokAt lit) s

/-- The literal prefixes of the four delay/RTT groups. -/
def upDelayLit : Str := "extrapolated smooth upstream delay (".data

def shortRttLit : Str := "shortest round trip delay (".data

def smoothRttLit : Str := "extrapolated smooth round trip delay (".data

def minRttLit : Str := "minimum smooth round trip delay (".data

/-- The nine captured groups of a `modem_stats` match. -/
structure ModemGroups where
  tsStr : Str
  modemId : Nat
  bwValue : ℚ
  bwUnit : Str
  lossPct : ℚ
  upDelay : Nat
  shortRtt : Nat
  smoothRtt : Nat
  minRtt : Nat
deriving Repr, DecidableEq

/-- The whole `modem_stats` pattern anchored at one position: the timestamp
group followed by the lazily-searched token chain. -/
def modemStatsAt (s : Str) : Option ModemGroups := do
  let (ts, r1) ← matchTsTok s
  let (mid, r2) ← findModemTok r1
  let (bwv, u, r3) ← findBwTok r2
  let (lv, r4) ← findLossTok r3
  let (d1, r5) ← findDelayTok upDelayLit r4
  let (d2, r6) ← findDelayTok shortRttLit r5
  let (d3, r7) ← findDelayTok smoothRttLit r6
  let (d4, _) ← findDelayTok minRttLit r7
  pure ⟨ts, mid, bwv, u, lv, d1, d2, d3, d4⟩

/-- `re.search` of the `modem_stats` pattern on one line. -/
def modem_stats_search (line : Str) : Option ModemGroups :=
  searchSfx modemStatsAt line

/-- Embedding of `convert_bandwidth_to_mbps`: normalize by the lowercased
unit token; an unknown unit passes the value through. -/
def convert_bandwidth_to_mbps (value : ℚ) (unit : Str) : ℚ :=
  let u := pyLower unit
  if u = "kbps".data then value / 1000
  else if u = "mbps".data then value
  else if u = "gbps".data then value * 1000
  else if u = "bps".data then value / 1000000
  else value

/-- One telemetry metric as appended by `parse_content`. -/
structure TelemetryRecord where
  time : PyDateTime
  modem_id : Nat
  bandwidth_mbps : ℚ
  packet_loss_percent : ℚ
  upstream_delay_ms : Nat
  shortest_rtt_ms : Nat
  smooth_rtt_ms : Nat
  min_rtt_ms : Nat
deriving Repr, DecidableEq

/-- Build the metric from a match's groups; the record is appended only if
`parse_timestamp` succeeds. -/
def recordOfGroups (g : ModemGroups) : Option TelemetryRecord :=
  match parse_timestamp g.tsStr with
  | some t =>
    some ⟨t, g.modemId, convert_bandwidth_to_mbps g.bwValue g.bwUnit,
      g.lossPct, g.upDelay, g.shortRtt, g.smoothRtt, g.minRtt⟩
  | none => none

/-- The metrics one line contributes. -/
def parse_line (line : Str) : List TelemetryRecord :=
  match modem_stats_search line with
  | some g => (recordOfGroups g).toList
  | none => []

/-- Embedding of `BandwidthParser.parse_content`: split on newlines and
scan each line independently. -/
def parse_content (content : Str) : List TelemetryRecord :=
  (splitOnChar nlChar content).flatMap parse_line

/-!  Presence predicates for the seven required token kinds of a telemetry
line, each defined as a leftmost search for the corresponding sub-pattern. -/

/-- The line contains an ISO-8601-with-offset timestamp token. -/
def hasTsToken (l : Str) : Bool := (searchSfx matchTsTok l).isSome

/-- The line contains a modem-index token. -/
def hasModemToken (l : Str) : Bool := (findModemTok l).isSome

/-- The line contains a bandwidth magnitude-and-unit token. -/
def hasBwToken (l : Str) : Bool := (findBwTok l).isSome

/-- The line contains a packet-loss percentage token. -/
def hasLossToken (l : Str) : Bool := (findLossTok l).isSome

/-- The line contains the given delay/RTT token. -/
def hasDelayToken (lit : Str) (l : Str) : Bool := (findDelayTok lit l).isSome

/-- All required tokens of the `modem_stats` pattern are present. -/
def hasRequiredTokens (l : Str) : Bool :=
  hasTsToken l && hasModemToken l && hasBwToken l && hasLossToken l &&
    hasDelayToken upDelayLit l && hasDelayToken shortRttLit l &&
    hasDelayToken smoothRttLit l && hasDelayToken minRttLit l

/-!  ## session_analyzer.py — data model -/

/-- Lexicographic `<` on strings (Python string comparison by code point),
used by the timeline sort and the session sort keys. -/
def strLtB : Str → Str → Bool
  | [], [] => false
  | [], _ :: _ => true
  | _ :: _, [] => false
  | a :: as2, b :: bs =>
    if a < b then true else if b < a then false else strLtB as2 bs

/-- Replace every `Z` by `+00:00` (Python `.replace('Z', '+00:00')`). -/
def replaceZ : Str → Str
  | [] => []
  | c :: cs =>
    if c = 'Z' then '+' :: '0' :: '0' :: ':' :: '0' :: '0' :: replaceZ cs
    else c :: replaceZ cs

/-- Replace every space by `T` (Python `.replace(' ', 'T')`). -/
def replaceSpaceT (s : Str) : Str := s.map (fun c => if c = ' ' then 'T' else c)

/-- The `network_config` dictionary of a session. -/
structure NetworkConfig where
  collector_address : Option Str
  ifb_address : Option Str
  stun_server : Option Str
  video_port : Option Str
  audio_ports : List Str
deriving Repr, DecidableEq

/-- The `streaming_config` dictionary of a session. -/
structure StreamingConfig where
  profile : Option Str
  spare_delay : Option Str
  active_links : Option Str
  encryption : Option Bool
deriving Repr, DecidableEq

/-- One `state_timeline` entry. -/
structure TimelineEntry where
  state : Str
  timestamp : Str
  type : Str
  duration : Option ℚ
deriving Repr, DecidableEq

/-- A session record, as the dictionary built by `_parse_sessions`. -/
structure Session where
  session_id : Str
  state_timeline : List TimelineEntry
  network_config : NetworkConfig
  streaming_config : StreamingConfig
  start_time : Option Str
  end_time : Option Str
  session_duration : Option ℚ
  final_status : Option Str
  setup_duration : Option ℚ
  unit_name : Option Str
  server_instance : Option Str
  server_version : Option Str
deriving Repr, DecidableEq

/-- A freshly created session dictionary. -/
def freshSession (sid : Str) : Session :=
  ⟨sid, [], ⟨none, none, none, none, []⟩, ⟨none, none, none, none⟩,
    none, none, none, none, none, none, none, none⟩

/-!  ## session_analyzer.py — the per-line pattern matchers -/

/-- Anchored `SESSION ID:\s*(\d+)`. -/
def sessionIdAt (s : Str) : Option Str := do
  let r1 ← stripLit "SESSION ID:".data s
  let (ds, _) ← digits1 (wsStar r1)
  pure ds

/-- Embedding of `_extract_session_id`. -/
def extract_session_id (line : Str) : Option Str := searchSfx sessionIdAt line

/-- Embedding of `_extract_timestamp` (session analyzer): leftmost search
for `(\d{4}-\d{2}-\d{2}T\d{2}:\d{2}:\d{2}\.\d+)`, returning the capture. -/
def extract_timestamp_sa (line : Str) : Option Str :=
  searchSfx (matchCapture patIsoFrac) line

/-- Anchored `corecard\s+(\w+)\s+`. -/
def unitNameAt (s : Str) : Option Str := do
  let r1 ← stripLit "corecard".data s
  let r2 ← wsPlus r1
  let w := r2.takeWhile isWordCh
  if w.isEmpty then none
  else do
    let _ ← wsPlus (r2.dropWhile isWordCh)
    pure w

/-- Anchored `(Boss\d+_\d+_Instance\d+)`. -/
def serverInstanceAt (s : Str) : Option Str := do
  let r1 ← stripLit "Boss".data s
  let (d1, r2) ← digits1 r1
  let r3 ← expectCh '_' r2
  let (d2, r4) ← digits1 r3
  let r5 ← stripLit "_Instance".data r4
  let (d3, _) ← digits1 r5
  pure ("Boss".data ++ d1 ++ '_' :: d2 ++ "_Instance".data ++ d3)

/-- Digit-or-dot class `[\d\.]`. -/
def isDigDot (c : Char) : Bool := isDigitCh c || c = '.'

/-- Anchored `version:\s*([\d\.]+\.[A-Za-z]\d+\.[A-Za-z]\w+)`.  The only
viable split of the leading `[\d\.]+\.` leaves the whole digit-dot run,
which must therefore end with a dot (regex backtracking yields exactly
this division). -/
def serverVersionAt (s : Str) : Option Str := do
  let r1 ← stripLit "version:".data s
  let r2 := wsStar r1
  let run := r2.takeWhile isDigDot
  if run.length ≥ 2 && run.getLast? = some '.' then
    match r2.drop run.length with
    | a :: r4 =>
      if a.isAlpha then do
        let (d, r5) ← digits1 r4
        let r6 ← expectCh '.' r5
        match r6 with
        | b :: r7 =>
          if b.isAlpha then
            let w := r7.takeWhile isWordCh
            if w.isEmpty then none else pure (run ++ a :: d ++ '.' :: b :: w)
          else none
        | [] => none
      else none
    | [] => none
  else none

/-- Capture `([^']+)'`: nonempty content up to the closing single quote. -/
def quotedTo (s : Str) : Option (Str × Str) :=
  let c := s.takeWhile (fun x => x ≠ sqCh)
  if c.isEmpty then none
  else
    match s.dropWhile (fun x => x ≠ sqCh) with
    | _ :: r => some (c, r)
    | [] => none

/-- Capture `([^"]+)"`: nonempty content up to the closing double quote. -/
def dquotedTo (s : Str) : Option (Str × Str) :=
  let c := s.takeWhile (fun x => x ≠ '"')
  if c.isEmpty then none
  else
    match s.dropWhile (fun x => x ≠ '"') with
    | _ :: r => some (c, r)
    | [] => none

/-- Anchored `destination':\s*\['([^']+)',\s*(\d+)\]`, yielding the
`host:port` string the code stores. -/
def collectorAt (s : Str) : Option Str := do
  let r1 ← stripLit ("destination".data ++ [sqCh, ':']) s
  let r2 ← expectCh '[' (wsStar r1)
  let r3 ← expectCh sqCh r2
  let (host, r4) ← quotedTo r3
  let r5 ← expectCh ',' r4
  let (ds, r6) ← digits1 (wsStar r5)
  let _ ← expectCh ']' r6
  pure (host ++ ':' :: ds)

/-- Anchored `ifbAddress':\s*\['([^']+)',\s*(\d+)\]`. -/
def ifbAt (s : Str) : Option Str := do
  let r1 ← stripLit ("ifbAddress".data ++ [sqCh, ':']) s
  let r2 ← expectCh '[' (wsStar r1)
  let r3 ← expectCh sqCh r2
  let (host, r4) ← quotedTo r3
  let r5 ← expectCh ',' r4
  let (ds, r6) ← digits1 (wsStar r5)
  let _ ← expectCh ']' r6
  pure (host ++ ':' :: ds)

/-- Anchored `'host':\s*'([^']+)',.*?'port':\s*(\d+)`. -/
def stunAt (s : Str) : Option Str := do
  let r1 ← stripLit ([sqCh] ++ "host".data ++ [sqCh, ':']) s
  let r2 ← expectCh sqCh (wsStar r1)
  let (host, r3) ← quotedTo r2
  let r4 ← expectCh ',' r3
  let (port, _) ←
    searchSfx (fun t => do
      let t1 ← stripLit ([sqCh] ++ "port".data ++ [sqCh, ':']) t
      digits1 (wsStar t1)) r4
  pure (host ++ ':' :: port)

/-- Anchored `listening to socket on port (\d+).*video`. -/
def videoPortAt (s : Str) : Option Str := do
  let r1 ← stripLit "listening to socket on port ".data s
  let (ds, r2) ← digits1 r1
  if containsLit r2 "video".data then pure ds else none

/-- Anchored `listening to socket on port (\d+).*audio`. -/
def audioPortAt (s : Str) : Option Str := do
  let r1 ← stripLit "listening to socket on port ".data s
  let (ds, r2) ← digits1 r1
  if containsLit r2 "audio".data then pure ds else none

/-- Anchored `Set probing profile to (\w+) profile`. -/
def profileAt (s : Str) : Option Str := do
  let r1 ← stripLit "Set probing profile to ".data s
  let w := r1.takeWhile isWordCh
  if w.isEmpty then none
  else do
    let _ ← stripLit " profile".data (r1.dropWhile isWordCh)
    pure w

/-- The `(\d+\.\d+)\s*milliseconds` tail of the spare-delay pattern. -/
def spareNumAt (t : Str) : Option Str := do
  let (d1, t1) ← digits1 t
  let t2 ← expectCh '.' t1
  let (d2, t3) ← digits1 t2
  let _ ← stripLit "milliseconds".data (wsStar t3)
  pure (d1 ++ '.' :: d2)

/-- Anchored `Setting spare delay.*?(\d+\.\d+)\s*milliseconds`. -/
def spareDelayAt (s : Str) : Option Str := do
  let r1 ← stripLit "Setting spare delay".data s
  searchSfx spareNumAt r1

/-- Anchored `returning (\d+) links.*?IDs:\s*\[(.*?)\]` (the first group is
the one stored). -/
def activeLinksAt (s : Str) : Option Str := do
  let r1 ← stripLit "returning ".data s
  let (ds, r2) ← digits1 r1
  let r3 ← stripLit " links".data r2
  let _ ←
    searchSfx (fun t => do
      let t1 ← stripLit "IDs:".data t
      let t2 ← expectCh '[' (wsStar t1)
      match t2.dropWhile (fun c => c ≠ ']') with
      | [] => none
      | _ :: _ => some ()) r3
  pure ds

/-- Anchored `Encryption (enabled|disabled)`, as the boolean the code
stores (`== 'enabled'`). -/
def encryptionAt (s : Str) : Option Bool := do
  let r1 ← stripLit "Encryption ".data s
  match stripLit "enabled".data r1 with
  | some _ => pure true
  | none =>
    match stripLit "disabled".data r1 with
    | some _ => pure false
    | none => none

/-- Anchored `Entering state "([^"]+)" of state machine "([^"]+)"`. -/
def transitionAt (s : Str) : Option Str := do
  let r1 ← stripLit "Entering state \"".data s
  let (st, r2) ← dquotedTo r1
  let r3 ← stripLit " of state machine \"".data r2
  let (_, _) ← dquotedTo r3
  pure st

/-- Anchored `Got readiness:.*?'video':\s*'([^']+)'`. -/
def readinessAt (s : Str) : Option Str := do
  let r1 ← stripLit "Got readiness:".data s
  searchSfx (fun t => do
    let t1 ← stripLit ([sqCh] ++ "video".data ++ [sqCh, ':']) t
    let t2 ← expectCh sqCh (wsStar t1)
    let (v, _) ← quotedTo t2
    pure v) r1

/-- Anchored `Got status message.*?'([^']+)'`. -/
def statusAt (s : Str) : Option Str := do
  let r1 ← stripLit "Got status message".data s
  searchSfx (fun t => do
    let t1 ← expectCh sqCh t
    let (v, _) ← quotedTo t1
    pure v) r1

/-- Leftmost search for a state transition. -/
def findTransition (l : Str) : Option Str := searchSfx transitionAt l

/-- Leftmost search for a readiness change. -/
def findReadiness (l : Str) : Option Str := searchSfx readinessAt l

/-- Leftmost search for a status message. -/
def findStatus (l : Str) : Option Str := searchSfx statusAt l

/-- `session_stop_gui` (searched with `re.IGNORECASE`). -/
def stopGuiMatch (l : Str) : Bool :=
  containsLit (pyLower l) "stop command from the lu100 gui".data

/-- `session_stop_general`: `(?:stop|end|terminate|disconnect).*session`,
case-insensitive. -/
def stopGeneralMatch (l : Str) : Bool :=
  (searchSfx (fun s =>
    match stripLit "stop".data s <|> stripLit "end".data s <|>
        stripLit "terminate".data s <|> stripLit "disconnect".data s with
    | some r => if containsLit r "session".data then some () else none
    | none => none) (pyLower l)).isSome

/-- `session_disconnect`: `(?:disconnected|connection lost|stream ended)`,
case-insensitive. -/
def disconnectMatch (l : Str) : Bool :=
  containsLit (pyLower l) "disconnected".data ||
    containsLit (pyLower l) "connection lost".data ||
    containsLit (pyLower l) "stream ended".data

/-!  ## session_analyzer.py — per-line session updates -/

/-- Embedding of `_parse_connection_info`: identity fields are
first-match-wins. -/
def parse_connection_info (line : Str) (s : Session) : Session :=
  let s :=
    match searchSfx unitNameAt line with
    | some w => if s.unit_name.isNone then { s with unit_name := some w } else s
    | none => s
  let s :=
    match searchSfx serverInstanceAt line with
    | some w =>
      if s.server_instance.isNone then { s with server_instance := some w } else s
    | none => s
  match searchSfx serverVersionAt line with
  | some w =>
    if s.server_version.isNone then { s with server_version := some w } else s
  | none => s

/-- Embedding of `_parse_network_config`: scalar fields are
last-match-wins; audio ports accumulate. -/
def parse_network_config (line : Str) (s : Session) : Session :=
  let nc := s.network_config
  let nc :=
    match searchSfx collectorAt line with
    | some v => { nc with collector_address := some v }
    | none => nc
  let nc :=
    match searchSfx ifbAt line with
    | some v => { nc with ifb_address := some v }
    | none => nc
  let nc :=
    match searchSfx stunAt line with
    | some v => { nc with stun_server := some v }
    | none => nc
  let nc :=
    match searchSfx videoPortAt line with
    | some v => { nc with video_port := some v }
    | none => nc
  let nc :=
    match searchSfx audioPortAt line with
    | some v => { nc with audio_ports := nc.audio_ports ++ [v] }
    | none => nc
  { s with network_config := nc }

/-- Embedding of `_parse_streaming_config`: last-match-wins fields. -/
def parse_streaming_config (line : Str) (s : Session) : Session :=
  let sc := s.streaming_config
  let sc :=
    match searchSfx profileAt line with
    | some v => { sc with profile := some v }
    | none => sc
  let sc :=
    match searchSfx spareDelayAt line with
    | some v => { sc with spare_delay := some (v ++ "ms".data) }
    | none => sc
  let sc :=
    match searchSfx activeLinksAt line with
    | some v => { sc with active_links := some v }
    | none => sc
  let sc :=
    match searchSfx encryptionAt line with
    | some v => { sc with encryption := some v }
    | none => sc
  { s with streaming_config := sc }

/-- Embedding of `_parse_state_info`: without a timestamp the line is
ignored; otherwise a transition appends a timeline entry and may set
`start_time`; a readiness change appends an entry and sets `final_status`
to its payload; a status message appends an entry and sets `final_status`
only for `collecting` / `streaming`; any stop/disconnect signal appends a
`Session Stopped` entry and sets `end_time` if unset. -/
def parse_state_info (line : Str) (s : Session) (ts : Option Str) : Session :=
  match ts with
  | none => s
  | some t =>
    let s :=
      match findTransition line with
      | some st =>
        let s2 :=
          { s with state_timeline :=
              s.state_timeline ++ [(⟨st, t, "transition".data, none⟩ : TimelineEntry)] }
        if s2.start_time.isNone then { s2 with start_time := some t } else s2
      | none => s
    let s :=
      match findReadiness line with
      | some v =>
        { s with
          state_timeline :=
            s.state_timeline ++ [(⟨"Video: ".data ++ v, t, "readiness".data, none⟩ : TimelineEntry)],
          final_status := some v }
      | none => s
    let s :=
      match findStatus line with
      | some v =>
        let s2 :=
          { s with state_timeline :=
              s.state_timeline ++ [(⟨"Status: ".data ++ v, t, "status".data, none⟩ : TimelineEntry)] }
        if v = "collecting".data || v = "streaming".data then
          { s2 with final_status := some v }
        else s2
      | none => s
    if stopGuiMatch line || stopGeneralMatch line || disconnectMatch line then
      let s2 :=
        { s with state_timeline :=
            s.state_timeline ++ [(⟨"Session Stopped".data, t, "end".data, none⟩ : TimelineEntry)] }
      if s2.end_time.isNone then { s2 with end_time := some t } else s2
    else s

/-- One line's full update of its session: the four sub-parsers in source
order. -/
def applyLine (line : Str) (s : Session) : Session :=
  let ts := extract_timestamp_sa line
  let s := parse_connection_info line s
  let s := parse_network_config line s
  let s := parse_streaming_config line s
  parse_state_info line s ts

/-- Update the insertion-ordered session map (Python dict): create the
session on first sight, then apply the line. -/
def assocUpdate (sid : Str) (line : Str) :
    List (Str × Session) → List (Str × Session)
  | [] => [(sid, applyLine line (freshSession sid))]
  | (k, v) :: rest =>
    if k = sid then (k, applyLine line v) :: rest
    else (k, v) :: assocUpdate sid line rest

/-- Compute each timeline entry's duration to the following entry,
omitting it when either timestamp fails to parse. -/
def addDurations : List TimelineEntry → List TimelineEntry
  | [] => []
  | [e] => [e]
  | e :: e2 :: rest =>
    let e3 :=
      match fromisoformat (replaceZ e.timestamp),
          fromisoformat (replaceZ e2.timestamp) with
      | some a, some b => { e with duration := some (secDiff a b) }
      | _, _ => e
    e3 :: addDurations (e2 :: rest)

/-- Embedding of `_finalize_session`: stable-sort the timeline by its
timestamp strings, fill in durations, compute `setup_duration` for
streaming sessions (time from start to the first entry whose lowercased
label contains `streaming`), and compute `session_duration` to the
explicit `end_time` or the last timeline entry; every parse failure simply
leaves the corresponding field unset. -/
def finalize_session (s : Session) : Session :=
  if s.state_timeline.isEmpty then s
  else
    let tl := addDurations (stableSort (fun a b => strLtB a.timestamp b.timestamp)
      s.state_timeline)
    let s := { s with state_timeline := tl }
    let s :=
      match s.start_time with
      | some st =>
        if s.final_status = some "streaming".data then
          match fromisoformat (replaceZ st) with
          | some sd =>
            match (tl.filter
                (fun e : TimelineEntry => containsLit (pyLower e.state) "streaming".data)).head? with
            | some e0 =>
              match fromisoformat (replaceZ e0.timestamp) with
              | some td => { s with setup_duration := some (secDiff sd td) }
              | none => s
            | none => s
          | none => s
        else s
      | none => s
    match s.start_time with
    | some st =>
      match fromisoformat (replaceZ st) with
      | some sd =>
        let endStr :=
          match s.end_time with
          | some e => some e
          | none => (s.state_timeline.getLast?).map (fun e : TimelineEntry => e.timestamp)
        match endStr with
        | some es =>
          match fromisoformat (replaceZ es) with
          | some ed => { s with session_duration := some (secDiff sd ed) }
          | none => s
        | none => s
      | none => s
    | none => s

/-- Embedding of `_parse_sessions`: scan the lines, accumulating sessions
keyed by session id in first-seen order, finalize each, and sort the
result by `start_time or ''`. -/
def parse_sessions (content : Str) : List Session :=
  let lines := splitOnChar nlChar content
  let m := lines.foldl
    (fun m line =>
      match extract_session_id line with
      | some sid => assocUpdate sid line m
      | none => m)
    []
  stableSort (fun a b => strLtB (a.start_time.getD []) (b.start_time.getD []))
    (m.map (fun p => finalize_session p.2))

/-!  ## session_analyzer.py — aggregates and the session date filter -/

/-- Python truthiness of an optional float: present and nonzero. -/
def truthyQ : Option ℚ → Bool
  | none => false
  | some q => decide (q ≠ 0)

/-- Python truthiness of an optional string: present and nonempty. -/
def optStrTruthy : Option Str → Bool
  | none => false
  | some s => !s.isEmpty

/-- Embedding of `_calculate_avg_setup_time`: mean over the truthy setup
durations, `None` when there are none. -/
def calculate_avg_setup_time (sessions : List Session) : Option ℚ :=
  let ds := sessions.filterMap
    (fun s => if truthyQ s.setup_duration then s.setup_duration else none)
  if ds.isEmpty then none else some (ds.sum / ds.length)

/-- Embedding of `_calculate_avg_session_duration`. -/
def calculate_avg_session_duration (sessions : List Session) : Option ℚ :=
  let ds := sessions.filterMap
    (fun s => if truthyQ s.session_duration then s.session_duration else none)
  if ds.isEmpty then none else some (ds.sum / ds.length)

/-- The body of the session date filter's `try` block for one session
whose `start_time` string is `st`: `none` models an exception escaping to
the `except` handler (unparseable session start, unparseable bound, or an
aware/naive comparison), `some false` a `continue`, `some true` an append. -/
def sessionRangeCheck (startB endB : Option Str) (st : Str) : Option Bool :=
  match fromisoformat (replaceZ st) with
  | none => none
  | some sdt =>
    let stepStart : Option Bool :=
      if optStrTruthy startB then
        match fromisoformat (replaceSpaceT (startB.getD [])) with
        | none => none
        | some bd =>
          match dtLtOpt sdt bd with
          | none => none
          | some lt => some (!lt)
      else some true
    match stepStart with
    | none => none
    | some false => some false
    | some true =>
      if optStrTruthy endB then
        match fromisoformat (replaceSpaceT (endB.getD [])) with
        | none => none
        | some bd =>
          match dtLtOpt bd sdt with
          | none => none
          | some gt => some (!gt)
      else some true

/-- Whether the filter keeps one session: a missing (or empty) start time
is skipped before the `try`; an exception inside the `try` retains the
session ("include the session to be safe"). -/
def keepSession (startB endB : Option Str) (s : Session) : Bool :=
  match s.start_time with
  | none => false
  | some st =>
    if st.isEmpty then false
    else
      match sessionRangeCheck startB endB st with
      | none => true
      | some b => b

/-- Embedding of `_filter_sessions_by_datetime`. -/
def filter_sessions_by_datetime (startB endB : Option Str)
    (sessions : List Session) : List Session :=
  if !optStrTruthy startB && !optStrTruthy endB then sessions
  else sessions.filter (keepSession startB endB)

/-- The analysis result dictionary of `analyze_file`. -/
structure AnalysisResult where
  success : Bool
  total_sessions : Nat
  successful_sessions : Nat
  failed_sessions : Nat
  avg_setup_time : Option ℚ
  avg_session_duration : Option ℚ
  sessions : List Session
deriving Repr, DecidableEq

/-- Embedding of the pure part of `analyze_file`: parse the sessions from
the given content, optionally filter by date, and build the aggregates.
`successful_sessions` counts `final_status == 'streaming'`;
`failed_sessions` counts statuses outside `['streaming', 'collecting']`. -/
def analyze_content (content : Str) (startB endB : Option Str) :
    AnalysisResult :=
  let sessions := parse_sessions content
  let sessions :=
    if optStrTruthy startB || optStrTruthy endB then
      filter_sessions_by_datetime startB endB sessions
    else sessions
  { success := true,
    total_sessions := sessions.length,
    successful_sessions :=
      (sessions.filter (fun s => decide (s.final_status = some "streaming".data))).length,
    failed_sessions :=
      (sessions.filter (fun s =>
        decide (¬ (s.final_status = some "streaming".data ∨
          s.final_status = some "collecting".data)))).length,
    avg_setup_time := calculate_avg_setup_time sessions,
    avg_session_duration := calculate_avg_session_duration sessions,
    sessions := sessions }

/-!  ## Helper lemmas -/

theorem dropWhile_isSuffix (p : α → Bool) : ∀ l : List α, l.dropWhile p <:+ l
  | [] => List.nil_suffix
  | c :: cs => by
    by_cases h : p c
    · simpa [List.dropWhile_cons, h] using
        (dropWhile_isSuffix p cs).trans (List.suffix_cons c cs)
    · simp [List.dropWhile_cons, h]

theorem drop_append_isSuffix (n : Nat) (a b : List α) : a.drop n ++ b <:+ a ++ b :=
  ⟨a.take n, by rw [← List.append_assoc, List.take_append_drop]⟩

theorem stripLit_isSuffix : ∀ (p s r : Str), stripLit p s = some r → r <:+ s
  | [], s, r, h => by simp [stripLit] at h; simp [h]
  | _ :: _, [], r, h => by simp [stripLit] at h
  | p :: ps, c :: cs, r, h => by
    simp only [stripLit] at h
    split at h
    · exact (stripLit_isSuffix ps cs r h).trans (List.suffix_cons c cs)
    · exact absurd h (by simp)

theorem expectCh_isSuffix (c : Char) : ∀ (s r : Str), expectCh c s = some r → r <:+ s
  | [], r, h => by simp [expectCh] at h
  | x :: xs, r, h => by
    simp only [expectCh] at h
    split at h
    · cases h; exact List.suffix_cons x xs
    · exact absurd h (by simp)

theorem exactDigits_isSuffix :
    ∀ (n : Nat) (s : Str) (v : Nat) (r : Str), exactDigits n s = some (v, r) → r <:+ s
  | 0, s, v, r, h => by simp [exactDigits] at h; simp [h]
  | _ + 1, [], v, r, h => by simp [exactDigits] at h
  | n + 1, c :: cs, v, r, h => by
    simp only [exactDigits] at h
    split at h
    · cases h2 : exactDigits n cs with
      | none => rw [h2] at h; exact absurd h (by simp)
      | some p =>
        rw [h2] at h
        cases h
        exact (exactDigits_isSuffix n cs p.1 p.2 (by rw [h2])).trans
          (List.suffix_cons c cs)
    · exact absurd h (by simp)

theorem digits1_isSuffix (s : Str) (d r : Str) (h : digits1 s = some (d, r)) :
    r <:+ s := by
  simp only [digits1, takeDigits] at h
  split at h
  · exact absurd h (by simp)
  · cases h; exact dropWhile_isSuffix _ s

theorem wsPlus_isSuffix : ∀ (s r : Str), wsPlus s = some r → r <:+ s
  | [], r, h => by simp [wsPlus] at h
  | c :: cs, r, h => by
    simp only [wsPlus] at h
    split at h
    · cases h; exact (dropWhile_isSuffix _ cs).trans (List.suffix_cons c cs)
    · exact absurd h (by simp)

theorem wsStar_isSuffix (s : Str) : wsStar s <:+ s := dropWhile_isSuffix _ s

theorem searchSfx_eq_some {f : Str → Option α} :
    ∀ {l : Str} {a : α}, searchSfx f l = some a → ∃ t, t <:+ l ∧ f t = some a := by
  intro l
  induction l with
  | nil => intro a h; exact ⟨[], List.nil_suffix, by simpa [searchSfx] using h⟩
  | cons c cs ih =>
    intro a h
    simp only [searchSfx] at h
    cases hf : f (c :: cs) with
    | some b => rw [hf] at h; cases h; exact ⟨c :: cs, List.suffix_refl _, hf⟩
    | none =>
      rw [hf] at h
      obtain ⟨t, ht, hft⟩ := ih h
      exact ⟨t, ht.trans (List.suffix_cons c cs), hft⟩

theorem searchSfx_isSome_of {f : Str → Option α} :
    ∀ {l t : Str} {a : α}, t <:+ l → f t = some a → (searchSfx f l).isSome := by
  intro l
  induction l with
  | nil => intro t a ht hf
           rw [List.suffix_nil.mp ht] at hf
           simp [searchSfx, hf]
  | cons c cs ih =>
    intro t a ht hf
    simp only [searchSfx]
    cases hd : f (c :: cs) with
    | some b => simp
    | none =>
      obtain ⟨pre, hpre⟩ := ht
      cases pre with
      | nil => simp at hpre; rw [hpre] at hf; rw [hf] at hd; cases hd
      | cons x xs =>
        simp only [List.cons_append, List.cons.injEq] at hpre
        exact ih ⟨xs, hpre.2⟩ hf

/-!  Stable sort: membership and sortedness. -/

theorem mem_insertStable (lt : α → α → Bool) (e : α) :
    ∀ (l : List α) (y : α), y ∈ insertStable lt e l ↔ y = e ∨ y ∈ l
  | [], y => by simp [insertStable]
  | x :: xs, y => by
    simp only [insertStable]
    split
    · simp [or_comm, or_assoc, or_left_comm]
    · simp only [List.mem_cons, mem_insertStable lt e xs y]
      tauto

theorem insertStable_pairwise {lt : α → α → Bool} {R : α → α → Prop}
    (hTrans : ∀ a b c, R a b → R b c → R a c)
    (hT : ∀ a b, lt a b = true → R a b) (hF : ∀ a b, lt a b = false → R b a)
    (e : α) :
    ∀ (l : List α), l.Pairwise R → (insertStable lt e l).Pairwise R
  | [], _ => List.pairwise_singleton R e
  | x :: xs, h => by
    rcases List.pairwise_cons.mp h with ⟨hx, hxs⟩
    simp only [insertStable]
    cases hlt : lt e x with
    | true =>
      simp only [hlt, if_true]
      refine List.pairwise_cons.mpr ⟨?_, h⟩
      intro y hy
      rcases List.mem_cons.mp hy with rfl | hy2
      · exact hT _ _ hlt
      · exact hTrans _ _ _ (hT _ _ hlt) (hx y hy2)
    | false =>
      simp only [hlt, Bool.false_eq_true, if_false]
      refine List.pairwise_cons.mpr
        ⟨?_, insertStable_pairwise hTrans hT hF e xs hxs⟩
      intro y hy
      rcases (mem_insertStable lt e xs y).mp hy with rfl | hy2
      · exact hF _ _ hlt
      · exact hx y hy2

theorem foldl_insertStable_pairwise {lt : α → α → Bool} {R : α → α → Prop}
    (hTrans : ∀ a b c, R a b → R b c → R a c)
    (hT : ∀ a b, lt a b = true → R a b) (hF : ∀ a b, lt a b = false → R b a) :
    ∀ (l acc : List α), acc.Pairwise R →
      (l.foldl (fun a e => insertStable lt e a) acc).Pairwise R
  | [], _, h => h
  | x :: xs, acc, h =>
    foldl_insertStable_pairwise hTrans hT hF xs _
      (insertStable_pairwise hTrans hT hF x acc h)

theorem stableSort_pairwise {lt : α → α → Bool} {R : α → α → Prop}
    (hTrans : ∀ a b c, R a b → R b c → R a c)
    (hT : ∀ a b, lt a b = true → R a b) (hF : ∀ a b, lt a b = false → R b a)
    (l : List α) : (stableSort lt l).Pairwise R :=
  foldl_insertStable_pairwise hTrans hT hF l [] (List.Pairwise.nil)

/-!  The accumulation loops versus their functional forms. -/

theorem foldl_optAppend {α β} (f : α → Option β) :
    ∀ (l : List α) (acc : List β),
      l.foldl (fun a x => a ++ (f x).toList) acc = acc ++ l.filterMap f
  | [], acc => by simp
  | x :: xs, acc => by
    rw [List.foldl_cons, foldl_optAppend f xs]
    cases h : f x <;> simp [List.filterMap_cons, h]

theorem foldl_appendMap {α β} (g : α → List β) :
    ∀ (l : List α) (acc : List β),
      l.foldl (fun a x => a ++ g x) acc = acc ++ l.flatMap g
  | [], acc => by simp
  | x :: xs, acc => by
    rw [List.foldl_cons, foldl_appendMap g xs]
    simp [List.flatMap_cons]

/-!  Newline splitting distributes over a separator occurrence. -/

theorem splitOnChar_ne_nil (sep : Char) : ∀ l : Str, splitOnChar sep l ≠ []
  | [] => by simp [splitOnChar]
  | c :: cs => by
    simp only [splitOnChar]
    split
    · simp
    · simp

theorem splitOnChar_append (sep : Char) :
    ∀ a b : Str, splitOnChar sep (a ++ sep :: b) =
      splitOnChar sep a ++ splitOnChar sep b
  | [], b => by simp [splitOnChar]
  | c :: cs, b => by
    have ih := splitOnChar_append sep cs b
    by_cases h : c = sep
    · subst h
      have h1 : ∀ t : Str, splitOnChar c (c :: t) = [] :: splitOnChar c t :=
        fun t => by simp [splitOnChar]
      rw [List.cons_append, h1, h1, ih, List.cons_append]
    · have h2 : ∀ t : Str, splitOnChar sep (c :: t) =
          (c :: (splitOnChar sep t).headI) :: (splitOnChar sep t).tail :=
        fun t => by simp [splitOnChar, h]
      rw [List.cons_append, h2, h2, ih]
      cases hs : splitOnChar sep cs with
      | nil => exact absurd hs (splitOnChar_ne_nil sep cs)
      | cons x xs => simp [hs]

/-!  ## Claim theorems -/

theorem merge_collect_eq (cy : Nat) (sB eB : Option PyDateTime)
    (sources : List LogSrc) :
    merge_collect cy sB eB sources =
      sources.flatMap (fun src => src.lines.filterMap (keepLine cy sB eB src)) := by
  unfold merge_collect
  have h : (fun (acc : List MergeEntry) (src : LogSrc) =>
      src.lines.foldl (fun a2 l => a2 ++ (keepLine cy sB eB src l).toList) acc) =
      fun acc src => acc ++ src.lines.filterMap (keepLine cy sB eB src) := by
    funext acc src
    exact foldl_optAppend _ _ _
  rw [h]
  simpa using
    foldl_appendMap (fun src : LogSrc => src.lines.filterMap (keepLine cy sB eB src))
      sources []

/-- Source `fileA` of the merge tie-break scenario: one line at 10:00:01. -/
def fileA_src : LogSrc := ⟨"fileA".data, 0, ["2024-01-15 10:00:01 alpha".data]⟩

/-- Source `fileB.gz` of the merge tie-break scenario: one line at
10:00:00. -/
def fileB_src : LogSrc := ⟨"fileB.gz".data, 1, ["2024-01-15 10:00:00 beta".data]⟩

/-- The merged entry contributed by `fileA`. -/
def entry_fileA : MergeEntry :=
  ⟨⟨2024, 1, 15, 10, 0, 1, 0, none⟩, "2024-01-15 10:00:01 alpha".data,
    "fileA".data, 0⟩

/-- The merged entry contributed by `fileB.gz`. -/
def entry_fileB : MergeEntry :=
  ⟨⟨2024, 1, 15, 10, 0, 0, 0, none⟩, "2024-01-15 10:00:00 beta".data,
    "fileB.gz".data, 1⟩

/-- C1.  For every list of log sources and every optional time range, the
merge loop of `merge_messages_logs` produces exactly the reference result:
collect every retained line from all sources in source-then-in-file order
and stable-sort by parsed instant (so equal instants keep that order); and
in the concrete scenario with sources `fileA` (line at 10:00:01) and
`fileB.gz` (line at 10:00:00) processed in order `[fileA, fileB]`,
`fileB`'s line appears first in the merged output. -/
theorem merge_refines_reference :
    (∀ (cy : Nat) (startStr endStr : Option Str) (sources : List LogSrc),
      merge_messages_logs cy startStr endStr sources =
        reference_merge cy startStr endStr sources) ∧
    merge_messages_logs 2025 none none [fileA_src, fileB_src] =
      [entry_fileB, entry_fileA] := by
  constructor
  · intro cy s e sources
    unfold merge_messages_logs reference_merge
    simp only [merge_collect_eq]
  · decide

/-- A source wrapper used by the C4 concrete filter checks. -/
def c4src : LogSrc := ⟨"messages.log".data, 0, []⟩

theorem strptimeDateOnly_shape (e : Str) (d : PyDateTime)
    (h : strptimeDateOnly e = some d) :
    d = ⟨d.year, d.month, d.day, 0, 0, 0, 0, none⟩ := by
  unfold strptimeDateOnly at h
  cases hf : stpDate e with
  | none => rw [hf] at h; cases h
  | some p =>
    rw [hf] at h
    obtain ⟨⟨y, mo, dd⟩, r⟩ := p
    simp only [Option.pure_def, Option.bind_eq_bind, Option.some_bind] at h
    split at h
    · cases h; rfl
    · cases h

/-- C4.  For every end bound supplied as a date-only string (one
whitespace-separated part), `parse_date_range` normalizes the parsed end
bound to 23:59:59 of the parsed date — including bounds with unpadded
one-digit month or day, which `strptime`'s `%m`/`%d` accept (`2024-1-5`
parses to 2024-01-05 23:59:59); concretely, the merge filter with end
bound `2024-01-15` keeps a non-blank line timestamped
`2024-01-15T23:59:59` and drops one timestamped `2024-01-16T00:00:01`. -/
theorem end_bound_end_of_day :
    (∀ (e : Str) (dt : PyDateTime), (pySplitWs e).length = 1 →
      parseEndBound (some e) = some dt →
      dt.hour = 23 ∧ dt.minute = 59 ∧ dt.second = 59 ∧
        strptimeDateOnly e = some ⟨dt.year, dt.month, dt.day, 0, 0, 0, 0, none⟩) ∧
    parseEndBound (some "2024-1-5".data) =
      some ⟨2024, 1, 5, 23, 59, 59, 0, none⟩ ∧
    (keepLine 2025 none (parseEndBound (some "2024-01-15".data)) c4src
        "2024-01-15T23:59:59 ok".data).isSome = true ∧
    keepLine 2025 none (parseEndBound (some "2024-01-15".data)) c4src
        "2024-01-16T00:00:01 no".data = none := by
  refine ⟨?_, by decide, by decide, by decide⟩
  intro e dt h1 h2
  cases he : e.isEmpty with
  | true =>
    rw [List.isEmpty_iff.mp he] at h1
    simp [pySplitWs, pySplitWsGo] at h1
  | false =>
    simp only [parseEndBound, he, Bool.false_eq_true, if_false, h1] at h2
    cases hd : strptimeDateOnly e with
    | none => rw [hd] at h2; cases h2
    | some d =>
      rw [hd] at h2
      simp only [Option.map_some'] at h2
      have hshape := strptimeDateOnly_shape e d hd
      cases h2
      exact ⟨rfl, rfl, rfl, congrArg some hshape⟩

/-- Witness for C4: the bound `2024-01-15` is date-only and parses to
2024-01-15 23:59:59. -/
theorem end_bound_end_of_day_witness :
    (pySplitWs "2024-01-15".data).length = 1 ∧
    ((⟨2024, 1, 15, 23, 59, 59, 0, none⟩ : PyDateTime).hour = 23 ∧
      (⟨2024, 1, 15, 23, 59, 59, 0, none⟩ : PyDateTime).minute = 59 ∧
      (⟨2024, 1, 15, 23, 59, 59, 0, none⟩ : PyDateTime).second = 59 ∧
      strptimeDateOnly "2024-01-15".data =
        some ⟨(⟨2024, 1, 15, 23, 59, 59, 0, none⟩ : PyDateTime).year,
          (⟨2024, 1, 15, 23, 59, 59, 0, none⟩ : PyDateTime).month,
          (⟨2024, 1, 15, 23, 59, 59, 0, none⟩ : PyDateTime).day,
          0, 0, 0, 0, none⟩) :=
  ⟨by decide,
    end_bound_end_of_day.1 "2024-01-15".data ⟨2024, 1, 15, 23, 59, 59, 0, none⟩
      (by decide) (by decide)⟩

/-- The telemetry line of the concrete unit-conversion check. -/
def mlineTelemetry : Str :=
  ("2025-09-23T12:23:36.779174+00:00 Modem Statistics for modem 2: " ++
    "potentialBW 1500kbps loss (0.5%) extrapolated smooth upstream delay " ++
    "(25ms) shortest round trip delay (40ms) extrapolated smooth round " ++
    "trip delay (55ms) minimum smooth round trip delay (38ms)").data

/-- The metric that line produces. -/
def recTelemetry : TelemetryRecord :=
  ⟨⟨2025, 9, 23, 12, 23, 36, 779174, none⟩, 2, 3 / 2, 1 / 2, 25, 40, 55, 38⟩

set_option maxRecDepth 100000 in
unseal Rat.mul Rat.inv Rat.add Rat.sub in
/-- C3.  `convert_bandwidth_to_mbps` normalizes by the unit token — kbps
divides by 1000, mbps is the identity, gbps multiplies by 1000, bps
divides by 1,000,000, and any unrecognized unit passes the value through
unchanged — and the concrete line carrying `potentialBW 1500kbps` yields a
record with `bandwidth_mbps` exactly 3/2 = 1.5. -/
theorem convert_bandwidth_units :
    (∀ v : ℚ, convert_bandwidth_to_mbps v "kbps".data = v / 1000 ∧
      convert_bandwidth_to_mbps v "mbps".data = v ∧
      convert_bandwidth_to_mbps v "gbps".data = v * 1000 ∧
      convert_bandwidth_to_mbps v "bps".data = v / 1000000) ∧
    (∀ (v : ℚ) (u : Str), pyLower u ≠ "kbps".data → pyLower u ≠ "mbps".data →
      pyLower u ≠ "gbps".data → pyLower u ≠ "bps".data →
      convert_bandwidth_to_mbps v u = v) ∧
    parse_line mlineTelemetry = [recTelemetry] ∧
    recTelemetry.bandwidth_mbps = 3 / 2 := by
  refine ⟨fun v => ⟨rfl, rfl, rfl, rfl⟩, ?_, by decide, rfl⟩
  intro v u h1 h2 h3 h4
  simp [convert_bandwidth_to_mbps, h1, h2, h3, h4]

/-- Witness for C3: the unit `Xps` is unrecognized and passes 7 through. -/
theorem convert_bandwidth_units_witness :
    convert_bandwidth_to_mbps 7 "Xps".data = 7 :=
  convert_bandwidth_units.2.1 7 "Xps".data (by decide) (by decide) (by decide)
    (by decide)

/-- Source of the sentinel-collation counterexample: one line parsing to
year 1 and one unparseable (sentinel) line. -/
def srcC5 : LogSrc :=
  ⟨"f".data, 0, ["0001-01-02T00:00:00 early".data, "junk here".data]⟩

/-- C5 counterexample.  With no time range, both lines are kept, but the
sentinel-timestamped line (`junk here`, timestamp 1970-01-01) does not
collate to the earliest position of the merged stream: the line parsing to
year 1 precedes it. -/
theorem sentinel_not_earliest_cex :
    merge_messages_logs 2025 none none [srcC5] =
      [⟨⟨1, 1, 2, 0, 0, 0, 0, none⟩, "0001-01-02T00:00:00 early".data,
          "f".data, 0⟩,
        ⟨epochDT, "junk here".data, "f".data, 0⟩] ∧
    (⟨1, 1, 2, 0, 0, 0, 0, none⟩ : PyDateTime) ≠ epochDT :=
  ⟨by decide, by decide⟩

/-- C5 amended.  With a time range active, a line is kept iff it is
non-blank with a post-1970 timestamp inside the range; with no range every
non-blank line is kept (sentinel ones included); and the merged stream is
nondecreasing in timestamp, so sentinel lines collate at the sentinel
instant — before every later-stamped line but after any line parsing to a
pre-1970 instant. -/
theorem sentinel_retention_amended :
    (∀ (cy : Nat) (sB eB : Option PyDateTime) (src : LogSrc) (line : Str),
      (sB.isSome || eB.isSome) = true →
      ((keepLine cy sB eB src line).isSome = true ↔
        ((pyStrip line).isEmpty = false ∧
          (extract_timestamp cy line).year > 1970 ∧
          is_timestamp_in_range (extract_timestamp cy line) sB eB = true))) ∧
    (∀ (cy : Nat) (src : LogSrc) (line : Str),
      (keepLine cy none none src line).isSome = true ↔
        (pyStrip line).isEmpty = false) ∧
    (∀ (cy : Nat) (startStr endStr : Option Str) (sources : List LogSrc),
      (merge_messages_logs cy startStr endStr sources).Pairwise
        (fun a b => a.ts.naiveMicros ≤ b.ts.naiveMicros)) := by
  refine ⟨?_, ?_, ?_⟩
  · intro cy sB eB src line h
    simp only [keepLine, h, if_true]
    split_ifs with h1 h2 <;>
      simp_all [Bool.and_eq_true, decide_eq_true_eq]
  · intro cy src line
    simp only [keepLine, Option.isSome_none, Bool.or_self, if_false]
    split_ifs with h1 <;> simp_all
  · intro cy startStr endStr sources
    unfold merge_messages_logs
    exact @stableSort_pairwise MergeEntry entryLt
      (fun a b => a.ts.naiveMicros ≤ b.ts.naiveMicros)
      (fun a b c hab hbc => le_trans hab hbc)
      (fun a b hab => le_of_lt (by simpa [entryLt, dtLt] using hab))
      (fun a b hab => le_of_not_lt (by simpa [entryLt, dtLt] using hab)) _

/-- An empty source used by witness statements. -/
def srcW5 : LogSrc := ⟨"g".data, 0, []⟩

/-- Witness for the amended C5: with a start bound of 2024-01-01, a line
stamped 2024-01-15 is kept. -/
theorem sentinel_retention_amended_witness :
    (keepLine 2025 (some ⟨2024, 1, 1, 0, 0, 0, 0, none⟩) none srcW5
      "2024-01-15T10:00:00 x".data).isSome = true :=
  (sentinel_retention_amended.1 2025 (some ⟨2024, 1, 1, 0, 0, 0, 0, none⟩)
    none srcW5 "2024-01-15T10:00:00 x".data (by decide)).mpr
    ⟨by decide, by decide, by decide⟩

/-- C6.  For every scanned line carrying a timestamp: a readiness event
sets `final_status` to its payload token (when no status message is also
present to overwrite it); a status-message event sets it only when its
token is `collecting` or `streaming` and otherwise leaves it unchanged;
when neither a readiness nor a status event matches, `final_status` is
never changed (in particular by stop/disconnect events); and a pure
stop/disconnect line appends a `Session Stopped` timeline marker and sets
`end_time` only if it was unset. -/
theorem final_status_update_rules :
    ∀ (line : Str) (s : Session) (t : Str),
      (∀ v, findReadiness line = some v → findStatus line = none →
        (parse_state_info line s (some t)).final_status = some v) ∧
      (∀ u, findStatus line = some u → findReadiness line = none →
        ((u = "collecting".data ∨ u = "streaming".data →
            (parse_state_info line s (some t)).final_status = some u) ∧
          (u ≠ "collecting".data → u ≠ "streaming".data →
            (parse_state_info line s (some t)).final_status = s.final_status))) ∧
      (findReadiness line = none → findStatus line = none →
        (parse_state_info line s (some t)).final_status = s.final_status) ∧
      ((stopGuiMatch line || stopGeneralMatch line || disconnectMatch line) = true →
        findTransition line = none → findReadiness line = none →
        findStatus line = none →
        (parse_state_info line s (some t)).state_timeline =
            s.state_timeline ++
              [(⟨"Session Stopped".data, t, "end".data, none⟩ : TimelineEntry)] ∧
          (parse_state_info line s (some t)).end_time =
            some (s.end_time.getD t)) := by
  intro line s t
  refine ⟨?_, ?_, ?_, ?_⟩
  · intro v hR hS
    simp only [parse_state_info, hR, hS]
    cases hT : findTransition line <;>
      by_cases hstop :
        (stopGuiMatch line || stopGeneralMatch line || disconnectMatch line) = true <;>
      split_ifs <;> simp_all
  · intro u hS hR
    constructor
    · intro hu
      have hu2 : (u = "collecting".data || u = "streaming".data) = true := by
        rcases hu with h | h <;> simp [h]
      simp only [parse_state_info, hR, hS, hu2]
      cases hT : findTransition line <;>
        by_cases hstop :
          (stopGuiMatch line || stopGeneralMatch line || disconnectMatch line) = true <;>
        split_ifs <;> simp_all
    · intro h1 h2
      have hu2 : (u = "collecting".data || u = "streaming".data) = false := by
        simp [h1, h2]
      simp only [parse_state_info, hR, hS, hu2]
      cases hT : findTransition line <;>
        by_cases hstop :
          (stopGuiMatch line || stopGeneralMatch line || disconnectMatch line) = true <;>
        split_ifs <;> simp_all
  · intro hR hS
    simp only [parse_state_info, hR, hS]
    cases hT : findTransition line <;>
      by_cases hstop :
        (stopGuiMatch line || stopGeneralMatch line || disconnectMatch line) = true <;>
      split_ifs <;> simp_all
  · intro hstop hT hR hS
    simp only [parse_state_info, hT, hR, hS, hstop, if_true]
    cases he : s.end_time <;> simp_all

/-- The readiness line of the C6 witness. -/
def rlineC6 : Str :=
  "2024-03-01T09:00:00.000000 SESSION ID: 9 Got readiness: ".data ++
    [sqCh] ++ "video".data ++ [sqCh, ':', ' ', sqCh] ++ "streaming".data ++ [sqCh]

/-- Witness for C6: the readiness line sets `final_status` to
`streaming`. -/
theorem final_status_update_rules_witness :
    (parse_state_info rlineC6 (freshSession "9".data)
      (some "2024-03-01T09:00:00.000000".data)).final_status =
      some "streaming".data :=
  (final_status_update_rules rlineC6 (freshSession "9".data)
    "2024-03-01T09:00:00.000000".data).1 "streaming".data (by decide) (by decide)

/-- A session whose `start_time` is present but unparseable. -/
def sessC8 : Session := { freshSession "1".data with start_time := some "notadate".data }

/-- C8 counterexample.  Both filter bounds are well-formed (the start
bound parses), the session's `start_time` does not parse as a date, and
yet the filter retains the session: the fail-open path is taken on a
session-side parse failure, not only when a filter bound fails to parse. -/
theorem date_filter_fail_open_cex :
    filter_sessions_by_datetime (some "2024-01-15".data) none [sessC8] =
        [sessC8] ∧
      fromisoformat (replaceZ "notadate".data) = none ∧
      (fromisoformat (replaceSpaceT "2024-01-15".data)).isSome = true :=
  ⟨by decide, by decide, by decide⟩

/-- C8 amended.  With a date filter active the filter keeps exactly the
sessions accepted by `keepSession`; a session with no `start_time` at all
is always excluded (even when a bound is unparseable); a session whose
`start_time` is present but unparseable is always retained (fail-open),
as is a session for which range evaluation raises — in particular when a
supplied filter bound fails to parse; otherwise the range comparison
decides. -/
theorem date_filter_amended :
    (∀ (startB endB : Option Str) (sessions : List Session),
      (optStrTruthy startB || optStrTruthy endB) = true →
      filter_sessions_by_datetime startB endB sessions =
        sessions.filter (keepSession startB endB)) ∧
    (∀ (startB endB : Option Str) (s : Session), s.start_time = none →
      keepSession startB endB s = false) ∧
    (∀ (startB endB : Option Str) (s : Session) (st : Str),
      s.start_time = some st → st ≠ [] →
      fromisoformat (replaceZ st) = none → keepSession startB endB s = true) ∧
    (∀ (startB endB : Option Str) (s : Session) (st : Str) (sdt : PyDateTime)
        (bs : Str),
      s.start_time = some st → st ≠ [] →
      fromisoformat (replaceZ st) = some sdt →
      startB = some bs → optStrTruthy startB = true →
      fromisoformat (replaceSpaceT bs) = none →
      keepSession startB endB s = true) ∧
    (∀ (startB endB : Option Str) (s : Session) (st : Str) (b : Bool),
      s.start_time = some st → st ≠ [] →
      sessionRangeCheck startB endB st = some b →
      keepSession startB endB s = b) := by
  refine ⟨?_, ?_, ?_, ?_, ?_⟩
  · intro sB eB sessions h
    have h2 : (!optStrTruthy sB && !optStrTruthy eB) = false := by
      cases ha : optStrTruthy sB <;> cases hb : optStrTruthy eB <;> simp_all
    simp [filter_sessions_by_datetime, h2]
  · intro sB eB s h
    simp [keepSession, h]
  · intro sB eB s st h1 h2 h3
    have hne : st.isEmpty = false := by
      cases st with
      | nil => exact absurd rfl h2
      | cons a l => rfl
    simp [keepSession, h1, hne, sessionRangeCheck, h3]
  · intro sB eB s st sdt bs h1 h2 h3 h4 h5 h6
    have hne : st.isEmpty = false := by
      cases st with
      | nil => exact absurd rfl h2
      | cons a l => rfl
    subst h4
    simp [keepSession, h1, hne, sessionRangeCheck, h3, h5, h6]
  · intro sB eB s st b h1 h2 h3
    have hne : st.isEmpty = false := by
      cases st with
      | nil => exact absurd rfl h2
      | cons a l => rfl
    simp [keepSession, h1, hne, h3]

/-- A session starting before the witness filter's start bound. -/
def sessW8 : Session :=
  { freshSession "2".data with start_time := some "2024-01-10T00:00:00".data }

/-- Witness for the amended C8: a parseable pre-bound session is
excluded by the range comparison. -/
theorem date_filter_amended_witness :
    keepSession (some "2024-01-15".data) none sessW8 = false :=
  date_filter_amended.2.2.2.2 (some "2024-01-15".data) none sessW8
    "2024-01-10T00:00:00".data false rfl (by decide) (by decide)

/-- A line giving session 7 a `collecting` status message. -/
def sline9a : Str :=
  "2024-01-15T10:00:00.000000 SESSION ID: 7 Got status message: ".data ++
    [sqCh] ++ "collecting".data ++ [sqCh]

/-- A line giving session 8 a transition and a streaming readiness at the
same instant (so its setup duration is exactly 0.0, which is falsy in
Python). -/
def sline9b : Str :=
  "2024-01-15T11:00:00.000000 SESSION ID: 8 Entering state \"Xyz\" of state machine \"Mach\" Got readiness: ".data ++
    [sqCh] ++ "video".data ++ [sqCh, ':', ' ', sqCh] ++ "streaming".data ++ [sqCh]

/-- The two-session content of the aggregates counterexample. -/
def contentC9 : Str := sline9a ++ [nlChar] ++ sline9b

set_option maxRecDepth 200000 in
unseal Rat.mul Rat.inv Rat.add Rat.sub in
/-- C9 counterexample.  On this content the two counts do not partition
the sessions (1 streaming + 0 failed ≠ 2 total, the `collecting` session
is counted by neither), and both means are `None` even though session 8
has a setup duration and a session duration (both 0.0, excluded by the
truthiness filter). -/
theorem aggregates_partition_cex :
    (analyze_content contentC9 none none).total_sessions = 2 ∧
    (analyze_content contentC9 none none).successful_sessions = 1 ∧
    (analyze_content contentC9 none none).failed_sessions = 0 ∧
    (analyze_content contentC9 none none).avg_setup_time = none ∧
    (analyze_content contentC9 none none).avg_session_duration = none ∧
    (analyze_content contentC9 none none).sessions.map
        (fun s => (s.final_status, s.setup_duration, s.session_duration)) =
      [(some "collecting".data, none, none),
        (some "streaming".data, some 0, some 0)] :=
  ⟨by decide, by decide, by decide, by decide, by decide, by decide⟩

/-- Mean over the present-and-nonzero values of a list of optional
durations (the effect of Python's truthiness filter in the averages). -/
def avgNonzero (l : List (Option ℚ)) : Option ℚ :=
  let ds := (l.filterMap id).filter (fun q => decide (q ≠ 0))
  if ds.isEmpty then none else some (ds.sum / ds.length)

theorem filterTruthy_eq (g : Session → Option ℚ) :
    ∀ l : List Session,
      l.filterMap (fun s => if truthyQ (g s) then g s else none) =
        ((l.map g).filterMap id).filter (fun q => decide (q ≠ 0))
  | [] => rfl
  | s :: l => by
    have ih := filterTruthy_eq g l
    cases hg : g s with
    | none => simpa [List.filterMap_cons, hg, truthyQ] using ih
    | some q =>
      by_cases hq : q = 0
      · simpa [List.filterMap_cons, hg, truthyQ, hq] using ih
      · simpa [List.filterMap_cons, hg, truthyQ, hq, List.filter_cons] using ih

theorem three_filter_partition (p q r : α → Bool)
    (h : ∀ x, (p x = true ∧ q x = false ∧ r x = false) ∨
      (p x = false ∧ q x = true ∧ r x = false) ∨
      (p x = false ∧ q x = false ∧ r x = true)) :
    ∀ l : List α,
      (l.filter p).length + (l.filter q).length + (l.filter r).length = l.length
  | [] => rfl
  | x :: l => by
    have ih := three_filter_partition p q r h l
    rcases h x with ⟨h1, h2, h3⟩ | ⟨h1, h2, h3⟩ | ⟨h1, h2, h3⟩ <;>
      simp [List.filter_cons, h1, h2, h3] <;> omega

/-- C9 amended.  `successful_sessions` counts the streaming sessions and
`failed_sessions` those whose status is neither `streaming` nor
`collecting`; together with the `collecting` sessions these partition all
sessions (so the two counts alone do not).  Each mean is taken over the
sessions whose duration is present and nonzero — a 0.0 duration is
excluded by Python truthiness. -/
theorem aggregates_amended :
    ∀ (content : Str) (startB endB : Option Str),
      (analyze_content content startB endB).successful_sessions +
          (analyze_content content startB endB).failed_sessions +
          ((analyze_content content startB endB).sessions.filter
            (fun s => decide (s.final_status = some "collecting".data))).length =
        (analyze_content content startB endB).total_sessions ∧
      (analyze_content content startB endB).avg_setup_time =
        avgNonzero ((analyze_content content startB endB).sessions.map
          (fun s => s.setup_duration)) ∧
      (analyze_content content startB endB).avg_session_duration =
        avgNonzero ((analyze_content content startB endB).sessions.map
          (fun s => s.session_duration)) := by
  intro content startB endB
  refine ⟨?_, ?_, ?_⟩
  · apply three_filter_partition
    intro x
    by_cases h1 : x.final_status = some "streaming".data <;>
      by_cases h2 : x.final_status = some "collecting".data <;>
      simp_all
  · exact congrArg
      (fun ds : List ℚ => if ds.isEmpty then none else some (ds.sum / ds.length))
      (filterTruthy_eq (fun s => s.setup_duration) _)
  · exact congrArg
      (fun ds : List ℚ => if ds.isEmpty then none else some (ds.sum / ds.length))
      (filterTruthy_eq (fun s => s.session_duration) _)

/-- The sorted, duration-annotated timeline that `_finalize_session`
computes from a session's raw timeline. -/
def sortedTimeline (s : Session) : List TimelineEntry :=
  addDurations (stableSort (fun a b => strLtB a.timestamp b.timestamp)
    s.state_timeline)

/-- The first timeline entry whose lowercased label contains
`streaming` (`streaming_states[0]` in the source). -/
def firstStreamingEntry (tl : List TimelineEntry) : Option TimelineEntry :=
  (tl.filter (fun e : TimelineEntry =>
    containsLit (pyLower e.state) "streaming".data)).head?

/-- First line of the setup-duration scenario: `transition@T1`. -/
def tline7a : Str :=
  "2024-01-15T10:00:00.000000 SESSION ID: 42 Entering state \"Acquiring\" of state machine \"Main\"".data

/-- Second line of the setup-duration scenario:
`readiness(video=streaming)@T2` with `T2 = T1 + 5s`. -/
def tline7b : Str :=
  "2024-01-15T10:00:05.000000 SESSION ID: 42 Got readiness: ".data ++
    [sqCh] ++ "video".data ++ [sqCh, ':', ' ', sqCh] ++ "streaming".data ++ [sqCh]

/-- The content of the setup-duration scenario. -/
def tcontentC7 : Str := tline7a ++ [nlChar] ++ tline7b

set_option maxRecDepth 200000 in
unseal Rat.mul Rat.inv Rat.add Rat.sub in
/-- C7.  For every session whose `final_status` is `streaming` and whose
`start_time` is set and parses, finalization sets `setup_duration` to the
time from the session start to the first entry of the stable-sorted
timeline whose label denotes streaming (whenever that entry exists and
parses); and on the concrete scenario `transition@T1` then
`readiness(video=streaming)@T2` for one session id, the analysis yields
`final_status = streaming` and `setup_duration = T2 - T1 = 5` seconds. -/
theorem setup_duration_streaming :
    (∀ (s : Session) (st : Str) (sd : PyDateTime) (e0 : TimelineEntry)
        (td : PyDateTime),
      s.final_status = some "streaming".data →
      s.start_time = some st →
      s.state_timeline ≠ [] →
      fromisoformat (replaceZ st) = some sd →
      firstStreamingEntry (sortedTimeline s) = some e0 →
      fromisoformat (replaceZ e0.timestamp) = some td →
      (finalize_session s).setup_duration = some (secDiff sd td)) ∧
    (parse_sessions tcontentC7).map
        (fun s => (s.final_status, s.setup_duration)) =
      [(some "streaming".data, some 5)] := by
  constructor
  · intro s st sd e0 td h1 h2 h3 h4 h5 h6
    have hne : s.state_timeline.isEmpty = false := by
      cases hsl : s.state_timeline with
      | nil => exact absurd hsl h3
      | cons a l => rfl
    have h5u : ((addDurations (stableSort
        (fun a b => strLtB a.timestamp b.timestamp) s.state_timeline)).filter
        (fun e : TimelineEntry =>
          containsLit (pyLower e.state) "streaming".data)).head? = some e0 := h5
    unfold finalize_session
    simp only [hne, Bool.false_eq_true, if_false, h2, h1, h4, h5u, h6, if_pos]
    split <;> (try split) <;> rfl
  · decide

/-- The session of the C7 witness, as accumulated before finalization. -/
def sessW7 : Session :=
  { freshSession "42".data with
    final_status := some "streaming".data,
    start_time := some "2024-01-15T10:00:00.000000".data,
    state_timeline :=
      [⟨"Acquiring".data, "2024-01-15T10:00:00.000000".data,
          "transition".data, none⟩,
        ⟨"Video: streaming".data, "2024-01-15T10:00:05.000000".data,
          "readiness".data, none⟩] }

unseal Rat.mul Rat.inv Rat.add Rat.sub in
/-- Witness for C7: on the concrete session the setup duration is the
difference of the two parsed stamps. -/
theorem setup_duration_streaming_witness :
    (finalize_session sessW7).setup_duration =
      some (secDiff ⟨2024, 1, 15, 10, 0, 0, 0, none⟩
        ⟨2024, 1, 15, 10, 0, 5, 0, none⟩) :=
  setup_duration_streaming.1 sessW7 "2024-01-15T10:00:00.000000".data
    ⟨2024, 1, 15, 10, 0, 0, 0, none⟩
    ⟨"Video: streaming".data, "2024-01-15T10:00:05.000000".data,
      "readiness".data, none⟩
    ⟨2024, 1, 15, 10, 0, 5, 0, none⟩
    (by decide) (by decide) (by decide) (by decide) (by decide) (by decide)

/-!  Rest-suffix lemmas for the telemetry matcher stages. -/

theorem patDate_isSuffix (s r : Str) (h : patDate s = some r) : r <:+ s := by
  simp only [patDate, Option.bind_eq_bind, Option.bind_eq_some, Option.pure_def,
    Option.some.injEq] at h
  obtain ⟨⟨v1, r1⟩, h1, h⟩ := h
  obtain ⟨r2, h2, h⟩ := h
  obtain ⟨⟨v3, r3⟩, h3, h⟩ := h
  obtain ⟨r4, h4, h⟩ := h
  obtain ⟨⟨v5, r5⟩, h5, h⟩ := h
  subst h
  exact ((((exactDigits_isSuffix 2 r4 v5 r5 h5).trans
    (expectCh_isSuffix '-' r3 r4 h4)).trans
    (exactDigits_isSuffix 2 r2 v3 r3 h3)).trans
    (expectCh_isSuffix '-' r1 r2 h2)).trans
    (exactDigits_isSuffix 4 s v1 r1 h1)

theorem patClock_isSuffix (s r : Str) (h : patClock s = some r) : r <:+ s := by
  simp only [patClock, Option.bind_eq_bind, Option.bind_eq_some, Option.pure_def,
    Option.some.injEq] at h
  obtain ⟨⟨v1, r1⟩, h1, h⟩ := h
  obtain ⟨r2, h2, h⟩ := h
  obtain ⟨⟨v3, r3⟩, h3, h⟩ := h
  obtain ⟨r4, h4, h⟩ := h
  obtain ⟨⟨v5, r5⟩, h5, h⟩ := h
  subst h
  exact ((((exactDigits_isSuffix 2 r4 v5 r5 h5).trans
    (expectCh_isSuffix ':' r3 r4 h4)).trans
    (exactDigits_isSuffix 2 r2 v3 r3 h3)).trans
    (expectCh_isSuffix ':' r1 r2 h2)).trans
    (exactDigits_isSuffix 2 s v1 r1 h1)

theorem patFrac_isSuffix (s r : Str) (h : patFrac s = some r) : r <:+ s := by
  simp only [patFrac, Option.bind_eq_bind, Option.bind_eq_some, Option.pure_def,
    Option.some.injEq] at h
  obtain ⟨r1, h1, h⟩ := h
  obtain ⟨⟨d, r2⟩, h2, h⟩ := h
  subst h
  exact (digits1_isSuffix r1 d r2 h2).trans (expectCh_isSuffix '.' s r1 h1)

theorem patTzOff_isSuffix (s r : Str) (h : patTzOff s = some r) : r <:+ s := by
  cases s with
  | nil => simp [patTzOff] at h
  | cons c cs =>
    simp only [patTzOff] at h
    split at h
    · simp only [Option.bind_eq_bind, Option.bind_eq_some, Option.pure_def,
        Option.some.injEq] at h
      obtain ⟨⟨v1, r1⟩, h1, h⟩ := h
      obtain ⟨r2, h2, h⟩ := h
      obtain ⟨⟨v3, r3⟩, h3, h⟩ := h
      subst h
      exact (((exactDigits_isSuffix 2 r2 v3 r3 h3).trans
        (expectCh_isSuffix ':' r1 r2 h2)).trans
        (exactDigits_isSuffix 2 cs v1 r1 h1)).trans (List.suffix_cons c cs)
    · exact absurd h (by simp)

theorem patIsoFracTz_isSuffix (s r : Str) (h : patIsoFracTz s = some r) :
    r <:+ s := by
  simp only [patIsoFracTz, Option.bind_eq_bind, Option.bind_eq_some] at h
  obtain ⟨r1, h1, h⟩ := h
  obtain ⟨r2, h2, h⟩ := h
  obtain ⟨r3, h3, h⟩ := h
  obtain ⟨r4, h4, h⟩ := h
  exact (((((patTzOff_isSuffix r4 r h).trans (patFrac_isSuffix r3 r4 h4)).trans
    (patClock_isSuffix r2 r3 h3)).trans
    (expectCh_isSuffix 'T' r1 r2 h2)).trans (patDate_isSuffix s r1 h1))

theorem matchTsTok_isSuffix (s cap r : Str) (h : matchTsTok s = some (cap, r)) :
    r <:+ s := by
  simp only [matchTsTok, Option.map_eq_some'] at h
  obtain ⟨r1, h1, h2⟩ := h
  cases h2
  exact patIsoFracTz_isSuffix s r h1

theorem modemTokAt_isSuffix (s : Str) (v : Nat) (r : Str)
    (h : modemTokAt s = some (v, r)) : r <:+ s := by
  simp only [modemTokAt, Option.bind_eq_bind, Option.bind_eq_some, Option.pure_def,
    Option.some.injEq] at h
  obtain ⟨r1, h1, h⟩ := h
  obtain ⟨⟨d, r2⟩, h2, h⟩ := h
  obtain ⟨r3, h3, h⟩ := h
  obtain ⟨hv, hr⟩ := Prod.mk.injEq .. ▸ h
  subst hr
  exact ((expectCh_isSuffix ':' r2 r3 h3).trans
    (digits1_isSuffix r1 d r2 h2)).trans (stripLit_isSuffix _ s r1 h1)

theorem findModemTok_isSuffix (s : Str) (v : Nat) (r : Str)
    (h : findModemTok s = some (v, r)) : r <:+ s := by
  obtain ⟨t, ht, hat⟩ := searchSfx_eq_some h
  exact (modemTokAt_isSuffix t v r hat).trans ht

theorem fracTry_exists {α : Type} {k : Str → Option α} {ip : Nat} {fs r2 : Str} :
    ∀ {n : Nat} {q : ℚ} {a : α}, fracTry k ip fs r2 n = some (q, a) →
      ∃ cand, cand <:+ (fs ++ r2) ∧ k cand = some a := by
  intro n
  induction n with
  | zero => intro q a h; exact absurd h (by simp [fracTry])
  | succ m ih =>
    intro q a h
    rw [fracTry] at h
    cases hk : k (fs.drop (m + 1) ++ r2) with
    | some b =>
      rw [hk] at h
      cases h
      exact ⟨fs.drop (m + 1) ++ r2, drop_append_isSuffix (m + 1) fs r2, hk⟩
    | none => rw [hk] at h; exact ih h

theorem numTryAt_exists {α : Type} {k : Str → Option α} {ds r0 : Str} :
    ∀ {n : Nat} {q : ℚ} {a : α}, numTryAt k ds r0 n = some (q, a) →
      ∃ cand, cand <:+ (ds ++ r0) ∧ k cand = some a := by
  intro n
  induction n with
  | zero => intro q a h; exact absurd h (by simp [numTryAt])
  | succ m ih =>
    intro q a h
    rw [numTryAt] at h
    split at h
    · rename_i p hfr
      split at hfr
      · rename_i r1 hr1
        obtain ⟨cand, hc1, hc2⟩ := fracTry_exists (h ▸ hfr)
        refine ⟨cand, ?_, hc2⟩
        have h1 : r1.takeWhile isDigitCh ++ r1.dropWhile isDigitCh = r1 :=
          List.takeWhile_append_dropWhile isDigitCh r1
        rw [takeDigits] at hc1
        have h2 : cand <:+ r1 := by rw [← h1]; exact hc1
        have h3 : r1 <:+ ds.drop (m + 1) ++ r0 := by
          rw [hr1]; exact List.suffix_cons '.' r1
        exact (h2.trans h3).trans (drop_append_isSuffix (m + 1) ds r0)
      · exact absurd hfr (by simp)
    · rename_i hfr
      cases hk : k (ds.drop (m + 1) ++ r0) with
      | some b =>
        rw [hk] at h
        cases h
        exact ⟨ds.drop (m + 1) ++ r0, drop_append_isSuffix (m + 1) ds r0, hk⟩
      | none => rw [hk] at h; exact ih h

theorem numBktk_exists {α : Type} {k : Str → Option α} {s : Str} {q : ℚ} {a : α}
    (h : numBktk k s = some (q, a)) :
    ∃ cand, cand <:+ s ∧ k cand = some a := by
  unfold numBktk at h
  obtain ⟨cand, hc1, hc2⟩ := numTryAt_exists h
  refine ⟨cand, ?_, hc2⟩
  simpa [takeDigits, List.takeWhile_append_dropWhile] using hc1

theorem unitTryAt_isSuffix (ws r0 : Str) :
    ∀ (n : Nat) (u r : Str), unitTryAt ws r0 n = some (u, r) → r <:+ ws ++ r0 := by
  intro n
  induction n with
  | zero => intro u r h; exact absurd h (by simp [unitTryAt])
  | succ m ih =>
    intro u r h
    rw [unitTryAt] at h
    cases hs : stripLit "bps".data (ws.drop (m + 1) ++ r0) with
    | some r2 =>
      rw [hs] at h
      cases h
      exact (stripLit_isSuffix _ _ _ hs).trans (drop_append_isSuffix (m + 1) ws r0)
    | none => rw [hs] at h; exact ih u r h

theorem unitBktk_isSuffix (s u r : Str) (h : unitBktk s = some (u, r)) :
    r <:+ s := by
  unfold unitBktk at h
  have h2 := unitTryAt_isSuffix (s.takeWhile isWordCh) (s.dropWhile isWordCh)
    (s.takeWhile isWordCh).length u r h
  rwa [List.takeWhile_append_dropWhile] at h2

theorem bwTokAt_isSuffix (s : Str) (q : ℚ) (u r : Str)
    (h : bwTokAt s = some (q, u, r)) : r <:+ s := by
  simp only [bwTokAt, Option.bind_eq_bind, Option.bind_eq_some] at h
  obtain ⟨r1, h1, h2⟩ := h
  obtain ⟨cand, hc1, hc2⟩ := numBktk_exists h2
  exact ((unitBktk_isSuffix cand u r hc2).trans hc1).trans
    (stripLit_isSuffix _ s r1 h1)

theorem findBwTok_isSuffix (s : Str) (q : ℚ) (u r : Str)
    (h : findBwTok s = some (q, u, r)) : r <:+ s := by
  obtain ⟨t, ht, hat⟩ := searchSfx_eq_some h
  exact (bwTokAt_isSuffix t q u r hat).trans ht

theorem lossTokAt_isSuffix (s : Str) (q : ℚ) (r : Str)
    (h : lossTokAt s = some (q, r)) : r <:+ s := by
  simp only [lossTokAt, Option.bind_eq_bind, Option.bind_eq_some] at h
  obtain ⟨r1, h1, h2⟩ := h
  obtain ⟨cand, hc1, hc2⟩ := numBktk_exists h2
  exact ((stripLit_isSuffix _ cand r hc2).trans hc1).trans
    (stripLit_isSuffix _ s r1 h1)

theorem findLossTok_isSuffix (s : Str) (q : ℚ) (r : Str)
    (h : findLossTok s = some (q, r)) : r <:+ s := by
  obtain ⟨t, ht, hat⟩ := searchSfx_eq_some h
  exact (lossTokAt_isSuffix t q r hat).trans ht

theorem delayTokAt_isSuffix (lit s : Str) (v : Nat) (r : Str)
    (h : delayTokAt lit s = some (v, r)) : r <:+ s := by
  simp only [delayTokAt, Option.bind_eq_bind, Option.bind_eq_some,
    Option.pure_def, Option.some.injEq] at h
  obtain ⟨r1, h1, h⟩ := h
  obtain ⟨⟨d, r2⟩, h2, h⟩ := h
  obtain ⟨r3, h3, h⟩ := h
  obtain ⟨hv, hr⟩ := Prod.mk.injEq .. ▸ h
  subst hr
  exact ((stripLit_isSuffix _ r2 r3 h3).trans
    (digits1_isSuffix r1 d r2 h2)).trans (stripLit_isSuffix lit s r1 h1)

theorem findDelayTok_isSuffix (lit s : Str) (v : Nat) (r : Str)
    (h : findDelayTok lit s = some (v, r)) : r <:+ s := by
  obtain ⟨t, ht, hat⟩ := searchSfx_eq_some h
  exact (delayTokAt_isSuffix lit t v r hat).trans ht

theorem searchSfx_isSome_mono {f : Str → Option α} {t l : Str}
    (h1 : t <:+ l) (h2 : (searchSfx f t).isSome = true) :
    (searchSfx f l).isSome = true := by
  obtain ⟨a, ha⟩ := Option.isSome_iff_exists.mp h2
  obtain ⟨t2, ht2, hf⟩ := searchSfx_eq_some ha
  exact searchSfx_isSome_of (ht2.trans h1) hf

/-- Success of the full `modem_stats` chain at any position of a line
forces every required token to occur in that line. -/
theorem modem_match_tokens (l : Str) (g : ModemGroups)
    (h : modem_stats_search l = some g) : hasRequiredTokens l = true := by
  obtain ⟨t, htl, hat⟩ := searchSfx_eq_some h
  simp only [modemStatsAt, Option.bind_eq_bind, Option.bind_eq_some,
    Option.pure_def, Option.some.injEq] at hat
  obtain ⟨⟨ts, r1⟩, hts, hat⟩ := hat
  obtain ⟨⟨mid, r2⟩, hmod, hat⟩ := hat
  obtain ⟨⟨bwv, u, r3⟩, hbw, hat⟩ := hat
  obtain ⟨⟨lv, r4⟩, hloss, hat⟩ := hat
  obtain ⟨⟨d1, r5⟩, hd1, hat⟩ := hat
  obtain ⟨⟨d2, r6⟩, hd2, hat⟩ := hat
  obtain ⟨⟨d3, r7⟩, hd3, hat⟩ := hat
  obtain ⟨⟨d4, r8⟩, hd4, _⟩ := hat
  have s1 : r1 <:+ l := (matchTsTok_isSuffix t ts r1 hts).trans htl
  have s2 : r2 <:+ l := (findModemTok_isSuffix r1 mid r2 hmod).trans s1
  have s3 : r3 <:+ l := (findBwTok_isSuffix r2 bwv u r3 hbw).trans s2
  have s4 : r4 <:+ l := (findLossTok_isSuffix r3 lv r4 hloss).trans s3
  have s5 : r5 <:+ l := (findDelayTok_isSuffix _ r4 d1 r5 hd1).trans s4
  have s6 : r6 <:+ l := (findDelayTok_isSuffix _ r5 d2 r6 hd2).trans s5
  have s7 : r7 <:+ l := (findDelayTok_isSuffix _ r6 d3 r7 hd3).trans s6
  have p1 : hasTsToken l = true := searchSfx_isSome_of htl hts
  have p2 : hasModemToken l = true :=
    searchSfx_isSome_mono s1 (by rw [show searchSfx modemTokAt r1 =
      findModemTok r1 from rfl, hmod]; rfl)
  have p3 : hasBwToken l = true :=
    searchSfx_isSome_mono s2 (by rw [show searchSfx bwTokAt r2 =
      findBwTok r2 from rfl, hbw]; rfl)
  have p4 : hasLossToken l = true :=
    searchSfx_isSome_mono s3 (by rw [show searchSfx lossTokAt r3 =
      findLossTok r3 from rfl, hloss]; rfl)
  have p5 : hasDelayToken upDelayLit l = true :=
    searchSfx_isSome_mono s4 (by rw [show searchSfx (delayTokAt upDelayLit) r4 =
      findDelayTok upDelayLit r4 from rfl, hd1]; rfl)
  have p6 : hasDelayToken shortRttLit l = true :=
    searchSfx_isSome_mono s5 (by rw [show searchSfx (delayTokAt shortRttLit) r5 =
      findDelayTok shortRttLit r5 from rfl, hd2]; rfl)
  have p7 : hasDelayToken smoothRttLit l = true :=
    searchSfx_isSome_mono s6 (by rw [show searchSfx (delayTokAt smoothRttLit) r6 =
      findDelayTok smoothRttLit r6 from rfl, hd3]; rfl)
  have p8 : hasDelayToken minRttLit l = true :=
    searchSfx_isSome_mono s7 (by rw [show searchSfx (delayTokAt minRttLit) r7 =
      findDelayTok minRttLit r7 from rfl, hd4]; rfl)
  simp [hasRequiredTokens, p1, p2, p3, p4, p5, p6, p7, p8]

/-- C2.  A line contributes a telemetry record only if it contains all the
required tokens of the `modem_stats` pattern within that single line — the
ISO-8601-with-offset timestamp, the modem index, the bandwidth
magnitude-and-unit token, the packet-loss percentage and the four integer
delay/RTT fields; a line missing any of them yields no record; and the
scan is strictly per line, with no partial match carried across a newline:
`parse_content` distributes over newline concatenation. -/
theorem parse_content_all_or_nothing :
    (∀ (line : Str) (r : TelemetryRecord), r ∈ parse_line line →
      hasRequiredTokens line = true) ∧
    (∀ line : Str, hasRequiredTokens line = false → parse_line line = []) ∧
    (∀ a b : Str, parse_content (a ++ nlChar :: b) =
      parse_content a ++ parse_content b) := by
  refine ⟨?_, ?_, ?_⟩
  · intro line r hr
    cases hm : modem_stats_search line with
    | none => simp [parse_line, hm] at hr
    | some g => exact modem_match_tokens line g hm
  · intro line h
    cases hm : modem_stats_search line with
    | none => simp [parse_line, hm]
    | some g =>
      have h2 := modem_match_tokens line g hm
      rw [h] at h2
      cases h2
  · intro a b
    unfold parse_content
    rw [splitOnChar_append, List.flatMap_append]

set_option maxRecDepth 100000 in
unseal Rat.mul Rat.inv Rat.add Rat.sub in
/-- Witness for C2: the concrete telemetry line produces a record and
indeed carries all required tokens. -/
theorem parse_content_all_or_nothing_witness :
    hasRequiredTokens mlineTelemetry = true :=
  parse_content_all_or_nothing.1 mlineTelemetry recTelemetry (by decide)

/-!  Lemmas for the worker's timestamp handling (C10). -/

theorem takeWhile_all_append {p : Char → Bool} :
    ∀ (a : Str) (x : Char) (t : Str), (∀ c ∈ a, p c = true) → p x = false →
      (a ++ x :: t).takeWhile p = a ∧ (a ++ x :: t).dropWhile p = x :: t
  | [], x, t, _, hx => by
    simp [List.takeWhile_cons, List.dropWhile_cons, hx]
  | c :: cs, x, t, ha, hx => by
    have hc : p c = true := ha c (by simp)
    have ih := takeWhile_all_append cs x t (fun d hd => ha d (by simp [hd])) hx
    simp [List.takeWhile_cons, List.dropWhile_cons, hc, ih.1, ih.2]

theorem contains_false_of_forall (l : Str) (x : Char) (h : ∀ c ∈ l, c ≠ x) :
    l.contains x = false := by
  simp
  intro hx
  exact h x hx rfl

theorem digit_ne {c x : Char} (hc : isDigitCh c = true)
    (hx : isDigitCh x = false) : c ≠ x := by
  intro he
  rw [he, hx] at hc
  cases hc

/-- The exact shape of a string matched by the worker's timestamp group
`\d{4}-\d{2}-\d{2}T\d{2}:\d{2}:\d{2}\.\d+[+-]\d{2}:\d{2}`: fourteen date
and time digits, a nonempty fraction digit run `fs`, the offset sign, and
four offset digits. -/
def tsTokenStr (sign y1 y2 y3 y4 mo1 mo2 dd1 dd2 hh1 hh2 mm1 mm2 ss1 ss2 : Char)
    (fs : Str) (o1 o2 o3 o4 : Char) : Str :=
  [y1, y2, y3, y4, '-', mo1, mo2, '-', dd1, dd2, 'T',
    hh1, hh2, ':', mm1, mm2, ':', ss1, ss2, '.'] ++ fs ++
    [sign, o1, o2, ':', o3, o4]

theorem exactDigits2_eval {a b : Char} (r : Str) (ha : isDigitCh a = true)
    (hb : isDigitCh b = true) :
    exactDigits 2 (a :: b :: r) =
      some ((a.toNat - 48) * 10 + (b.toNat - 48), r) := by
  simp [exactDigits, ha, hb]

theorem exactDigits4_eval {a b c d : Char} (r : Str) (ha : isDigitCh a = true)
    (hb : isDigitCh b = true) (hc : isDigitCh c = true)
    (hd : isDigitCh d = true) :
    exactDigits 4 (a :: b :: c :: d :: r) =
      some ((a.toNat - 48) * 1000 + ((b.toNat - 48) * 100 +
        ((c.toNat - 48) * 10 + (d.toNat - 48))), r) := by
  simp [exactDigits, ha, hb, hc, hd]

theorem patIsoFracTz_token
    (sign y1 y2 y3 y4 mo1 mo2 dd1 dd2 hh1 hh2 mm1 mm2 ss1 ss2 o1 o2 o3 o4 : Char)
    (fs : Str)
    (hy1 : isDigitCh y1 = true) (hy2 : isDigitCh y2 = true)
    (hy3 : isDigitCh y3 = true) (hy4 : isDigitCh y4 = true)
    (hmo1 : isDigitCh mo1 = true) (hmo2 : isDigitCh mo2 = true)
    (hdd1 : isDigitCh dd1 = true) (hdd2 : isDigitCh dd2 = true)
    (hhh1 : isDigitCh hh1 = true) (hhh2 : isDigitCh hh2 = true)
    (hmm1 : isDigitCh mm1 = true) (hmm2 : isDigitCh mm2 = true)
    (hss1 : isDigitCh ss1 = true) (hss2 : isDigitCh ss2 = true)
    (ho1 : isDigitCh o1 = true) (ho2 : isDigitCh o2 = true)
    (ho3 : isDigitCh o3 = true) (ho4 : isDigitCh o4 = true)
    (hfs1 : fs ≠ []) (hfs2 : ∀ c ∈ fs, isDigitCh c = true)
    (hpm : sign = '+' ∨ sign = '-') :
    patIsoFracTz
      (tsTokenStr sign y1 y2 y3 y4 mo1 mo2 dd1 dd2 hh1 hh2 mm1 mm2 ss1 ss2 fs
        o1 o2 o3 o4) = some [] := by
  have hfe : fs.isEmpty = false := by
    cases fs with
    | nil => exact absurd rfl hfs1
    | cons a l => rfl
  cases hpm with
  | inl h =>
    subst h
    have htw := takeWhile_all_append fs '+' [o1, o2, ':', o3, o4] hfs2 (by decide)
    have hdg : digits1 (fs ++ ['+', o1, o2, ':', o3, o4]) =
        some (fs, ['+', o1, o2, ':', o3, o4]) := by
      simp only [digits1, takeDigits, htw.1, htw.2]
      simp [hfe]
    simp [tsTokenStr, patIsoFracTz, patDate, patClock, patFrac, patTzOff,
      exactDigits, expectCh, hdg, hfe,
      hy1, hy2, hy3, hy4, hmo1, hmo2, hdd1, hdd2, hhh1, hhh2, hmm1, hmm2,
      hss1, hss2, ho1, ho2, ho3, ho4]
  | inr h =>
    subst h
    have htw := takeWhile_all_append fs '-' [o1, o2, ':', o3, o4] hfs2 (by decide)
    have hdg : digits1 (fs ++ ['-', o1, o2, ':', o3, o4]) =
        some (fs, ['-', o1, o2, ':', o3, o4]) := by
      simp only [digits1, takeDigits, htw.1, htw.2]
      simp [hfe]
    simp [tsTokenStr, patIsoFracTz, patDate, patClock, patFrac, patTzOff,
      exactDigits, expectCh, hdg, hfe,
      hy1, hy2, hy3, hy4, hmo1, hmo2, hdd1, hdd2, hhh1, hhh2, hmm1, hmm2,
      hss1, hss2, ho1, ho2, ho3, ho4]

theorem takeWhile_all {p : Char → Bool} :
    ∀ l : Str, (∀ c ∈ l, p c = true) →
      l.takeWhile p = l ∧ l.dropWhile p = []
  | [], _ => by simp
  | c :: cs, h => by
    have hc : p c = true := h c (by simp)
    have ih := takeWhile_all cs (fun d hd => h d (by simp [hd]))
    simp [List.takeWhile_cons, List.dropWhile_cons, hc, ih.1, ih.2]

theorem isoOffset_negToken_isSome (o1 o2 o3 o4 : Char)
    (ho1 : isDigitCh o1 = true) (ho2 : isDigitCh o2 = true)
    (ho3 : isDigitCh o3 = true) (ho4 : isDigitCh o4 = true) :
    ∀ tz, isoOffset ['-', o1, o2, ':', o3, o4] = some tz →
      tz.isSome = true := by
  intro tz h
  simp [isoOffset, exactDigits2_eval ([':', o3, o4]) ho1 ho2,
    exactDigits2_eval ([] : Str) ho3 ho4] at h
  obtain ⟨h1, h2⟩ := h
  rw [← h2]
  rfl

theorem fmtDate_eval (y1 y2 y3 y4 mo1 mo2 dd1 dd2 : Char) (r : Str)
    (hy1 : isDigitCh y1 = true) (hy2 : isDigitCh y2 = true)
    (hy3 : isDigitCh y3 = true) (hy4 : isDigitCh y4 = true)
    (hmo1 : isDigitCh mo1 = true) (hmo2 : isDigitCh mo2 = true)
    (hdd1 : isDigitCh dd1 = true) (hdd2 : isDigitCh dd2 = true) :
    fmtDate (y1 :: y2 :: y3 :: y4 :: '-' :: mo1 :: mo2 :: '-' :: dd1 :: dd2 :: r) =
      if validDate
          ((y1.toNat - 48) * 1000 + ((y2.toNat - 48) * 100 +
            ((y3.toNat - 48) * 10 + (y4.toNat - 48))))
          ((mo1.toNat - 48) * 10 + (mo2.toNat - 48))
          ((dd1.toNat - 48) * 10 + (dd2.toNat - 48))
      then some ((((y1.toNat - 48) * 1000 + ((y2.toNat - 48) * 100 +
            ((y3.toNat - 48) * 10 + (y4.toNat - 48)))),
          ((mo1.toNat - 48) * 10 + (mo2.toNat - 48)),
          ((dd1.toNat - 48) * 10 + (dd2.toNat - 48))), r)
      else none := by
  simp [fmtDate,
    exactDigits4_eval ('-' :: mo1 :: mo2 :: '-' :: dd1 :: dd2 :: r) hy1 hy2 hy3 hy4,
    expectCh,
    exactDigits2_eval ('-' :: dd1 :: dd2 :: r) hmo1 hmo2,
    exactDigits2_eval r hdd1 hdd2]

theorem isoTimePart_eval (hh1 hh2 mm1 mm2 ss1 ss2 : Char) (fs tail : Str)
    (hhh1 : isDigitCh hh1 = true) (hhh2 : isDigitCh hh2 = true)
    (hmm1 : isDigitCh mm1 = true) (hmm2 : isDigitCh mm2 = true)
    (hss1 : isDigitCh ss1 = true) (hss2 : isDigitCh ss2 = true)
    (hfs1 : fs ≠ [])
    (htw : (fs ++ tail).takeWhile isDigitCh = fs ∧
      (fs ++ tail).dropWhile isDigitCh = tail) :
    isoTimePart
        (hh1 :: hh2 :: ':' :: mm1 :: mm2 :: ':' :: ss1 :: ss2 :: '.' ::
          (fs ++ tail)) =
      (isoOffset tail).bind (fun tz =>
        if validTime ((hh1.toNat - 48) * 10 + (hh2.toNat - 48))
            ((mm1.toNat - 48) * 10 + (mm2.toNat - 48))
            ((ss1.toNat - 48) * 10 + (ss2.toNat - 48))
        then some (((hh1.toNat - 48) * 10 + (hh2.toNat - 48)),
          ((mm1.toNat - 48) * 10 + (mm2.toNat - 48)),
          ((ss1.toNat - 48) * 10 + (ss2.toNat - 48)), fracMicros fs, tz)
        else none) := by
  have hfe : fs.isEmpty = false := by
    cases fs with
    | nil => exact absurd rfl hfs1
    | cons a l => rfl
  have hdg : digits1 (fs ++ tail) = some (fs, tail) := by
    simp only [digits1, takeDigits, htw.1, htw.2]
    simp [hfe]
  simp only [isoTimePart,
    exactDigits2_eval (':' :: mm1 :: mm2 :: ':' :: ss1 :: ss2 :: '.' :: (fs ++ tail)) hhh1 hhh2,
    exactDigits2_eval (':' :: ss1 :: ss2 :: '.' :: (fs ++ tail)) hmm1 hmm2,
    exactDigits2_eval ('.' :: (fs ++ tail)) hss1 hss2,
    Option.bind_eq_bind, Option.some_bind, hdg]
  cases ho : isoOffset tail with
  | none => simp
  | some tz => simp

theorem fromisoformat_dtToken_tz
    (y1 y2 y3 y4 mo1 mo2 dd1 dd2 hh1 hh2 mm1 mm2 ss1 ss2 : Char)
    (fs tail : Str)
    (hy1 : isDigitCh y1 = true) (hy2 : isDigitCh y2 = true)
    (hy3 : isDigitCh y3 = true) (hy4 : isDigitCh y4 = true)
    (hmo1 : isDigitCh mo1 = true) (hmo2 : isDigitCh mo2 = true)
    (hdd1 : isDigitCh dd1 = true) (hdd2 : isDigitCh dd2 = true)
    (hhh1 : isDigitCh hh1 = true) (hhh2 : isDigitCh hh2 = true)
    (hmm1 : isDigitCh mm1 = true) (hmm2 : isDigitCh mm2 = true)
    (hss1 : isDigitCh ss1 = true) (hss2 : isDigitCh ss2 = true)
    (hfs1 : fs ≠ [])
    (htw : (fs ++ tail).takeWhile isDigitCh = fs ∧
      (fs ++ tail).dropWhile isDigitCh = tail) :
    ∀ d, fromisoformat
        ([y1, y2, y3, y4, '-', mo1, mo2, '-', dd1, dd2, 'T',
          hh1, hh2, ':', mm1, mm2, ':', ss1, ss2, '.'] ++ fs ++ tail) = some d →
      isoOffset tail = some d.tzMin := by
  intro d hp
  have hdate := fmtDate_eval y1 y2 y3 y4 mo1 mo2 dd1 dd2
    ('T' :: hh1 :: hh2 :: ':' :: mm1 :: mm2 :: ':' :: ss1 :: ss2 :: '.' ::
      (fs ++ tail)) hy1 hy2 hy3 hy4 hmo1 hmo2 hdd1 hdd2
  have htime := isoTimePart_eval hh1 hh2 mm1 mm2 ss1 ss2 fs tail
    hhh1 hhh2 hmm1 hmm2 hss1 hss2 hfs1 htw
  simp only [List.cons_append, List.nil_append] at hp
  by_cases hv : validDate
      ((y1.toNat - 48) * 1000 + ((y2.toNat - 48) * 100 +
        ((y3.toNat - 48) * 10 + (y4.toNat - 48))))
      ((mo1.toNat - 48) * 10 + (mo2.toNat - 48))
      ((dd1.toNat - 48) * 10 + (dd2.toNat - 48)) = true
  · rw [if_pos hv] at hdate
    simp only [fromisoformat, Option.bind_eq_bind, hdate, Option.some_bind] at hp
    simp only [htime, Option.bind_eq_bind] at hp
    cases ho : isoOffset tail with
    | none => rw [ho] at hp; exact absurd hp (by simp)
    | some tz =>
      rw [ho] at hp
      simp only [Option.some_bind] at hp
      split at hp
      · simp only [Option.bind_eq_bind, Option.some_bind, Option.pure_def,
          Option.some.injEq] at hp
        rw [← hp]
      · exact absurd hp (by simp)
  · rw [if_neg hv] at hdate
    simp only [fromisoformat, Option.bind_eq_bind, hdate, Option.none_bind] at hp
    cases hp


theorem isoOffset_nil : isoOffset [] = some none := rfl

/-- C10: For every string of the exact shape matched by the worker's
timestamp group (four date digits, `T`, six time digits, a fractional-second
run, and a `[+-]HH:MM` offset), `parse_timestamp` strips a `+HH:MM` offset
(and a trailing `Z`), returning a wall-clock-naive datetime, but does not
strip a negative `-HH:MM` offset: a negative-offset token that parses
returns an offset-aware datetime (`tzMin` is set), differing in kind from
the naive result of positive-offset tokens. -/
theorem negative_offset_stays_aware
    (y1 y2 y3 y4 mo1 mo2 dd1 dd2 hh1 hh2 mm1 mm2 ss1 ss2 o1 o2 o3 o4 : Char)
    (fs : Str)
    (hy1 : isDigitCh y1 = true) (hy2 : isDigitCh y2 = true)
    (hy3 : isDigitCh y3 = true) (hy4 : isDigitCh y4 = true)
    (hmo1 : isDigitCh mo1 = true) (hmo2 : isDigitCh mo2 = true)
    (hdd1 : isDigitCh dd1 = true) (hdd2 : isDigitCh dd2 = true)
    (hhh1 : isDigitCh hh1 = true) (hhh2 : isDigitCh hh2 = true)
    (hmm1 : isDigitCh mm1 = true) (hmm2 : isDigitCh mm2 = true)
    (hss1 : isDigitCh ss1 = true) (hss2 : isDigitCh ss2 = true)
    (ho1 : isDigitCh o1 = true) (ho2 : isDigitCh o2 = true)
    (ho3 : isDigitCh o3 = true) (ho4 : isDigitCh o4 = true)
    (hfs1 : fs ≠ []) (hfs2 : ∀ c ∈ fs, isDigitCh c = true) :
    (∀ sign, sign = '+' ∨ sign = '-' →
      matchTsTok (tsTokenStr sign y1 y2 y3 y4 mo1 mo2 dd1 dd2 hh1 hh2 mm1 mm2
          ss1 ss2 fs o1 o2 o3 o4) =
        some (tsTokenStr sign y1 y2 y3 y4 mo1 mo2 dd1 dd2 hh1 hh2 mm1 mm2
          ss1 ss2 fs o1 o2 o3 o4, [])) ∧
    (∀ d, parse_timestamp (tsTokenStr '+' y1 y2 y3 y4 mo1 mo2 dd1 dd2 hh1 hh2
        mm1 mm2 ss1 ss2 fs o1 o2 o3 o4) = some d → d.tzMin = none) ∧
    (∀ d, parse_timestamp (tsTokenStr '-' y1 y2 y3 y4 mo1 mo2 dd1 dd2 hh1 hh2
        mm1 mm2 ss1 ss2 fs o1 o2 o3 o4) = some d → d.tzMin.isSome = true) ∧
    (∀ s : Str, s.contains '+' = false → s.getLast? = some 'Z' →
      parse_timestamp s = fromisoformat s.dropLast) := by
  refine ⟨?_, ?_, ?_, ?_⟩
  · intro sign hsig
    have hpat := patIsoFracTz_token sign y1 y2 y3 y4 mo1 mo2 dd1 dd2 hh1 hh2
      mm1 mm2 ss1 ss2 o1 o2 o3 o4 fs hy1 hy2 hy3 hy4 hmo1 hmo2 hdd1 hdd2
      hhh1 hhh2 hmm1 hmm2 hss1 hss2 ho1 ho2 ho3 ho4 hfs1 hfs2 hsig
    simp [matchTsTok, hpat]
  · intro d hp
    have hcont : (tsTokenStr '+' y1 y2 y3 y4 mo1 mo2 dd1 dd2 hh1 hh2 mm1 mm2
        ss1 ss2 fs o1 o2 o3 o4).contains '+' = true := by
      simp [tsTokenStr]
    have hheadne : ∀ c ∈ ([y1, y2, y3, y4, '-', mo1, mo2, '-', dd1, dd2, 'T',
        hh1, hh2, ':', mm1, mm2, ':', ss1, ss2, '.'] ++ fs : Str),
        (fun c => (decide (c ≠ '+'))) c = true := by
      intro c hc
      rcases List.mem_append.1 hc with h1 | h1
      · simp only [List.mem_cons, List.not_mem_nil, or_false] at h1
        rcases h1 with rfl|rfl|rfl|rfl|rfl|rfl|rfl|rfl|rfl|rfl|rfl|rfl|rfl|rfl|rfl|rfl|rfl|rfl|rfl|rfl
        · exact decide_eq_true (digit_ne hy1 (by decide))
        · exact decide_eq_true (digit_ne hy2 (by decide))
        · exact decide_eq_true (digit_ne hy3 (by decide))
        · exact decide_eq_true (digit_ne hy4 (by decide))
        · decide
        · exact decide_eq_true (digit_ne hmo1 (by decide))
        · exact decide_eq_true (digit_ne hmo2 (by decide))
        · decide
        · exact decide_eq_true (digit_ne hdd1 (by decide))
        · exact decide_eq_true (digit_ne hdd2 (by decide))
        · decide
        · exact decide_eq_true (digit_ne hhh1 (by decide))
        · exact decide_eq_true (digit_ne hhh2 (by decide))
        · decide
        · exact decide_eq_true (digit_ne hmm1 (by decide))
        · exact decide_eq_true (digit_ne hmm2 (by decide))
        · decide
        · exact decide_eq_true (digit_ne hss1 (by decide))
        · exact decide_eq_true (digit_ne hss2 (by decide))
        · decide
      · exact decide_eq_true (digit_ne (hfs2 c h1) (by decide))
    have hcut := @takeWhile_all_append (fun c => (decide (c ≠ '+')))
      ([y1, y2, y3, y4, '-', mo1, mo2, '-', dd1, dd2, 'T',
        hh1, hh2, ':', mm1, mm2, ':', ss1, ss2, '.'] ++ fs) '+'
      [o1, o2, ':', o3, o4] hheadne (by decide)
    have hsplit : tsTokenStr '+' y1 y2 y3 y4 mo1 mo2 dd1 dd2 hh1 hh2 mm1 mm2
        ss1 ss2 fs o1 o2 o3 o4 =
        ([y1, y2, y3, y4, '-', mo1, mo2, '-', dd1, dd2, 'T',
          hh1, hh2, ':', mm1, mm2, ':', ss1, ss2, '.'] ++ fs) ++
          '+' :: [o1, o2, ':', o3, o4] := by
      simp [tsTokenStr]
    have hEq : parse_timestamp (tsTokenStr '+' y1 y2 y3 y4 mo1 mo2 dd1 dd2 hh1
        hh2 mm1 mm2 ss1 ss2 fs o1 o2 o3 o4) =
        fromisoformat ([y1, y2, y3, y4, '-', mo1, mo2, '-', dd1, dd2, 'T',
          hh1, hh2, ':', mm1, mm2, ':', ss1, ss2, '.'] ++ fs) := by
      rw [parse_timestamp, hcont]
      rw [if_pos rfl, hsplit, hcut.1]
    rw [hEq] at hp
    have htw0 : (fs ++ ([] : Str)).takeWhile isDigitCh = fs ∧
        (fs ++ ([] : Str)).dropWhile isDigitCh = [] := by
      rw [List.append_nil]
      exact takeWhile_all fs hfs2
    have hoff := fromisoformat_dtToken_tz y1 y2 y3 y4 mo1 mo2 dd1 dd2 hh1 hh2
      mm1 mm2 ss1 ss2 fs [] hy1 hy2 hy3 hy4 hmo1 hmo2 hdd1 hdd2 hhh1 hhh2
      hmm1 hmm2 hss1 hss2 hfs1 htw0 d (by rw [List.append_nil]; exact hp)
    rw [isoOffset_nil] at hoff
    exact (Option.some.injEq _ _ ▸ hoff).symm
  · intro d hp
    have hcontN : (tsTokenStr '-' y1 y2 y3 y4 mo1 mo2 dd1 dd2 hh1 hh2 mm1 mm2
        ss1 ss2 fs o1 o2 o3 o4).contains '+' = false := by
      apply contains_false_of_forall
      intro c hc
      simp [tsTokenStr] at hc
      rcases hc with rfl|rfl|rfl|rfl|rfl|rfl|rfl|rfl|rfl|rfl|rfl|rfl|rfl|rfl|rfl|rfl|rfl|rfl|rfl|rfl|h1|rfl|rfl|rfl|rfl|rfl|rfl
      · exact digit_ne hy1 (by decide)
      · exact digit_ne hy2 (by decide)
      · exact digit_ne hy3 (by decide)
      · exact digit_ne hy4 (by decide)
      · decide
      · exact digit_ne hmo1 (by decide)
      · exact digit_ne hmo2 (by decide)
      · decide
      · exact digit_ne hdd1 (by decide)
      · exact digit_ne hdd2 (by decide)
      · decide
      · exact digit_ne hhh1 (by decide)
      · exact digit_ne hhh2 (by decide)
      · decide
      · exact digit_ne hmm1 (by decide)
      · exact digit_ne hmm2 (by decide)
      · decide
      · exact digit_ne hss1 (by decide)
      · exact digit_ne hss2 (by decide)
      · decide
      · exact digit_ne (hfs2 c h1) (by decide)
      · decide
      · exact digit_ne ho1 (by decide)
      · exact digit_ne ho2 (by decide)
      · decide
      · exact digit_ne ho3 (by decide)
      · exact digit_ne ho4 (by decide)
    have hne4 : o4 ≠ 'Z' := digit_ne ho4 (by decide)
    have hlast : (tsTokenStr '-' y1 y2 y3 y4 mo1 mo2 dd1 dd2 hh1 hh2 mm1 mm2
        ss1 ss2 fs o1 o2 o3 o4).getLast? = some o4 := by
      have hB : (['-', o1, o2, ':', o3, o4] : Str) ≠ [] := by simp
      rw [tsTokenStr]
      rw [List.getLast?_append_of_ne_nil _ hB]
      rfl
    have hEqN : parse_timestamp (tsTokenStr '-' y1 y2 y3 y4 mo1 mo2 dd1 dd2 hh1
        hh2 mm1 mm2 ss1 ss2 fs o1 o2 o3 o4) =
        fromisoformat (tsTokenStr '-' y1 y2 y3 y4 mo1 mo2 dd1 dd2 hh1 hh2 mm1
          mm2 ss1 ss2 fs o1 o2 o3 o4) := by
      rw [parse_timestamp, hcontN, hlast]
      simp [hne4]
    rw [hEqN] at hp
    have htwN := takeWhile_all_append fs '-' [o1, o2, ':', o3, o4] hfs2
      (by decide)
    have hoff := fromisoformat_dtToken_tz y1 y2 y3 y4 mo1 mo2 dd1 dd2 hh1 hh2
      mm1 mm2 ss1 ss2 fs ['-', o1, o2, ':', o3, o4] hy1 hy2 hy3 hy4 hmo1 hmo2
      hdd1 hdd2 hhh1 hhh2 hmm1 hmm2 hss1 hss2 hfs1 htwN d hp
    exact isoOffset_negToken_isSome o1 o2 o3 o4 ho1 ho2 ho3 ho4 d.tzMin hoff
  · intro s h1 h2
    rw [parse_timestamp, h1, h2]
    simp

set_option maxRecDepth 100000 in
theorem negative_offset_stays_aware_witness :
    (PyDateTime.mk 2025 9 23 12 23 36 779174 (some (-300))).tzMin.isSome
      = true :=
  (negative_offset_stays_aware '2' '0' '2' '5' '0' '9' '2' '3' '1' '2' '2' '3'
      '3' '6' '0' '5' '0' '0' ['7', '7', '9', '1', '7', '4']
      (by decide) (by decide) (by decide) (by decide) (by decide) (by decide)
      (by decide) (by decide) (by decide) (by decide) (by decide) (by decide)
      (by decide) (by decide) (by decide) (by decide) (by decide) (by decide)
      (by decide) (by decide)).2.2.1
    (PyDateTime.mk 2025 9 23 12 23 36 779174 (some (-300))) (by decide)
